/-
Verification of the YuuLogger performance-profiling core.

Shallow embedding of `PerformanceProfiler` (src/utils/logger/Log.formatter.ts,
second document in the file), the sampling gate of `YuuLogService`
(src/services/YuuLogger.service.ts), and the duration/statistics/report
formatting of `LoggerUtilities`.

Modelling conventions:
  * JavaScript numbers (floats) are modelled as exact rationals `Rat`;
    all values appearing in the claims are exactly representable.
  * `performance.now()`, `process.memoryUsage()`, `process.cpuUsage()` and
    `Math.random()` are environment reads; each operation receives an `Env`
    record carrying the values those reads return during that operation.
  * `randomUUID()` is modelled by a fresh-id counter (`nextId`); the only
    property the source relies on is uniqueness of ids.
  * JavaScript objects used as string-keyed maps (`metadata`,
    `activeProfiles`, `performanceMetrics`) are modelled as functions into
    `Option`; object references are modelled by storing profiles in an
    id-addressed heap (`ProfilerState.heap`), with `children` holding child
    ids, so that mutation through one alias is seen through all of them,
    exactly as for the shared `ProfileData` objects in the source.
-/
import Mathlib

namespace YuuLog

/-- `process.memoryUsage()` result (bytes). -/
structure MemUsage where
  rss : Int
  heapTotal : Int
  heapUsed : Int
  external : Int
deriving DecidableEq, Repr

/-- `process.cpuUsage()` result (microseconds). -/
structure CpuUsage where
  user : Int
  system : Int
deriving DecidableEq, Repr

/-- A metadata value: the profiler stores memory snapshots, cpu snapshots and
arbitrary caller-supplied values in the `metadata` object.  Caller values are
opaque; `vbase 0` stands for a JS-falsy caller value, any other `vbase n` for
a truthy one. -/
inductive MVal where
  | vmem (m : MemUsage)
  | vcpu (c : CpuUsage)
  | vbase (n : Nat)
deriving DecidableEq, Repr

/-- JavaScript truthiness of a metadata value: object snapshots are always
truthy; `vbase n` is truthy iff `n ≠ 0`. -/
def MVal.truthy : MVal → Bool
  | .vmem _ => true
  | .vcpu _ => true
  | .vbase n => n != 0

/-- The TS casts `metadata._initialMemory as NodeJS.MemoryUsage`. -/
def MVal.asMem : MVal → MemUsage
  | .vmem m => m
  | _ => ⟨0, 0, 0, 0⟩

/-- The TS casts `metadata._initialCpu as NodeJS.CpuUsage`. -/
def MVal.asCpu : MVal → CpuUsage
  | .vcpu c => c
  | _ => ⟨0, 0⟩

/-- A JS object used as a string-keyed map. -/
def Meta : Type := String → Option MVal

/-- The empty object `{}`. -/
def emptyMeta : Meta := fun _ => none

/-- Property write: `obj[k] = v` (also the effect of `k: v` in a spread). -/
def metaSet (m : Meta) (k : String) (v : MVal) : Meta :=
  fun k' => if k' = k then some v else m k'

/-- Property removal: `delete obj[k]`. -/
def metaDel (m : Meta) (k : String) : Meta :=
  fun k' => if k' = k then none else m k'

/-- `{...md, _initialMemory: memoryBefore, _initialCpu: cpuBefore}` where `md`
may be `undefined` (spread of `undefined` contributes nothing). -/
def withSnapshots (md : Option Meta) (mem : MemUsage) (cpu : CpuUsage) : Meta :=
  metaSet (metaSet (md.getD emptyMeta) "_initialMemory" (.vmem mem)) "_initialCpu" (.vcpu cpu)

/-- `SamplingOptions` (interfaces/YuuLogger.interfaces): all fields optional. -/
structure SamplingOptions where
  generalSamplingRate : Option Rat := none
  profileSamplingRate : Option Rat := none
  alwaysLogErrors : Option Bool := none
deriving DecidableEq, Repr

/-- The slice of `YuuLogOptions` the profiling core reads. -/
structure Options where
  sampling : Option SamplingOptions := none
deriving DecidableEq, Repr

/-- `defaultOptions.sampling` of both `PerformanceProfiler` and
`YuuLogService`: `{generalSamplingRate: 1.0, profileSamplingRate: 1.0,
alwaysLogErrors: true}`. -/
def defaultSampling : SamplingOptions :=
  { generalSamplingRate := some 1, profileSamplingRate := some 1, alwaysLogErrors := some true }

/-- `this.options.sampling || this.defaultOptions.sampling`. -/
def effectiveSampling (opts : Options) : SamplingOptions :=
  opts.sampling.getD defaultSampling

/-- The sampling rate the gate reads for a check:
`isProfile ? sampling?.profileSamplingRate ?? 1.0 : sampling?.generalSamplingRate ?? 1.0`. -/
def samplingRate (opts : Options) (isProfile : Bool) : Rat :=
  if isProfile then (effectiveSampling opts).profileSamplingRate.getD 1
  else (effectiveSampling opts).generalSamplingRate.getD 1

/-- `PerformanceProfiler.shouldSampleEvent` (Log.formatter.ts:227-243).
`rand` is the value returned by `Math.random()` when the draw is reached. -/
def shouldSampleEvent (opts : Options) (isProfile : Bool) (rand : Rat) : Bool :=
  let rate := samplingRate opts isProfile
  if rate ≥ 1 then true
  else decide (rand < rate)

/-- Log levels of `YuuLogService`. -/
inductive LogLevel where
  | error | warn | info | verbose | debug
deriving DecidableEq, Repr

/-- `YuuLogService.shouldSampleEvent` (YuuLogger.service.ts:245-267): errors
bypass sampling when `alwaysLogErrors` is truthy, then the profiler gate logic. -/
def serviceShouldSampleEvent (opts : Options) (level : LogLevel) (isProfile : Bool)
    (rand : Rat) : Bool :=
  if level = .error ∧ (effectiveSampling opts).alwaysLogErrors.getD false then true
  else
    let rate := samplingRate opts isProfile
    if rate ≥ 1 then true
    else decide (rand < rate)

/-- One reading of the environment during an operation: `performance.now()`
(`now`, ms), `process.memoryUsage()` (`mem`), `process.cpuUsage()` (`cpu`) and
`Math.random()` (`rand`).  The claims are insensitive to the numeric values of
resource snapshots, so the (at most two) reads inside a single operation are
modelled as returning the operation's values. -/
structure Env where
  now : Rat
  mem : MemUsage
  cpu : CpuUsage
  rand : Rat
deriving DecidableEq, Repr

/-- `PerformanceMetrics` (interfaces, part_003:55-81).  `startIndex` is a ghost
field not present in the source: it records the global sequence number of the
`startMeasure` call that created the record, and is used only to state
temporal ("most recently started") ordering. -/
structure PerformanceMetrics where
  operationName : String
  startTime : Rat
  endTime : Option Rat := none
  duration : Option Rat := none
  metadata : Option Meta := none
  memoryUsage : MemUsage
  cpuUsage : CpuUsage
  startIndex : Nat

/-- `ProfileData` (interfaces, part_003:12-47), as a heap record: `children`
holds the ids of the child `ProfileData` objects (object references). -/
structure ProfileRec where
  id : Nat
  operationName : String
  startTime : Rat
  endTime : Option Rat := none
  duration : Option Rat := none
  context : Option String := none
  metadata : Option Meta := none
  memoryUsageDiff : Option MemUsage := none
  cpuUsageDiff : Option CpuUsage := none
  children : Option (List Nat) := none

/-- The mutable state of one `PerformanceProfiler` instance.
`heap` is the JS object heap of all `ProfileData` ever created (objects
survive removal from the active map because the parent's `children` array
still references them); `active` is the key set of the `activeProfiles` map;
`metrics` is the `performanceMetrics` map; `nextId` models `randomUUID`
freshness; `startCount` is the ghost counter feeding
`PerformanceMetrics.startIndex`. -/
structure ProfilerState where
  nextId : Nat
  heap : Nat → Option ProfileRec
  active : List Nat
  metrics : String → Option (List PerformanceMetrics)
  startCount : Nat
  options : Options

/-- A freshly constructed profiler. -/
def initState (opts : Options) : ProfilerState :=
  { nextId := 0, heap := fun _ => none, active := [], metrics := fun _ => none,
    startCount := 0, options := opts }

/-- `this.activeProfiles.get(id)`. -/
def activeLookup (s : ProfilerState) (id : Nat) : Option ProfileRec :=
  if id ∈ s.active then s.heap id else none

/-- `PerformanceProfiler.startMeasure` (Log.formatter.ts:252-272): creates a
metrics record, appends it to the per-name history (creating the list on first
use), returns a fresh id (which the store itself never uses). -/
def startMeasure (s : ProfilerState) (name : String) (md : Option Meta) (env : Env) :
    Nat × ProfilerState :=
  let m : PerformanceMetrics :=
    { operationName := name, startTime := env.now, metadata := md,
      memoryUsage := env.mem, cpuUsage := env.cpu, startIndex := s.startCount }
  let l := (s.metrics name).getD []
  (s.nextId,
   { s with
     nextId := s.nextId + 1
     startCount := s.startCount + 1
     metrics := fun n => if n = name then some (l ++ [m]) else s.metrics n })

/-- `PerformanceProfiler.stopMeasure` (Log.formatter.ts:280-292):
`this.performanceMetrics.get(operationName)?.pop()` removes and returns the
last element of the history; on a hit the popped record gets `endTime` and
`duration` filled and is returned (the array no longer contains it). -/
def stopMeasure (s : ProfilerState) (name : String) (env : Env) :
    Option PerformanceMetrics × ProfilerState :=
  match s.metrics name with
  | none => (none, s)
  | some l =>
    match l.getLast? with
    | none => (none, s)
    | some m =>
      let finished := { m with endTime := some env.now,
                               duration := some (env.now - m.startTime) }
      (some finished,
       { s with metrics := fun n => if n = name then some l.dropLast else s.metrics n })

/-- `PerformanceProfiler.clearPerformanceMetrics` (Log.formatter.ts:345-351). -/
def clearPerformanceMetrics (s : ProfilerState) (name : Option String) : ProfilerState :=
  match name with
  | some n => { s with metrics := fun k => if k = n then none else s.metrics k }
  | none => { s with metrics := fun _ => none }

/-- `Number.prototype.toFixed(2)`, for the nonnegative exact values this
development evaluates it at (values with at most two decimal places, where no
floating-point rounding is involved). -/
def toFixed2 (q : Rat) : String :=
  let n : Nat := (round (q * 100) : Int).toNat
  let whole := n / 100
  let frac := n % 100
  toString whole ++ "." ++ (if frac < 10 then "0" ++ toString frac else toString frac)

/-- `Number.prototype.toFixed(0)` for nonnegative values. -/
def toFixed0 (q : Rat) : String :=
  toString ((round q : Int).toNat)

/-- `LoggerUtilities.formatDuration` (part_006:445-456): human-readable
duration with unit depending on magnitude. -/
def formatDuration (ms : Rat) : String :=
  if ms < 1 then toFixed2 (ms * 1000) ++ " μs"
  else if ms < 1000 then toFixed2 ms ++ " ms"
  else if ms < 60000 then toFixed2 (ms / 1000) ++ " s"
  else
    let minutes : Int := Int.floor (ms / 60000)
    let seconds := toFixed2 ((ms - 60000 * minutes) / 1000)
    toString minutes ++ "m " ++ seconds ++ "s"

/-- `Math.min(...durations)` for a nonempty list. -/
def listMin : List Rat → Rat
  | [] => 0
  | d :: ds => ds.foldl min d

/-- `Math.max(...durations)` for a nonempty list. -/
def listMax : List Rat → Rat
  | [] => 0
  | d :: ds => ds.foldl max d

/-- The `Record<string, unknown>` returned by `getPerformanceStats`: either
the degenerate `{operationName, count: 0, message}` object or the full
statistics object.  Note the duration fields are *strings* (the source pipes
every aggregate through `formatDuration`) and the last entry is keyed
`lastMeasurement`. -/
inductive StatsResult where
  | degenerate (operationName : String) (count : Nat) (message : String)
  | stats (operationName : String) (count : Nat)
      (totalDuration averageDuration minDuration maxDuration lastMeasurement : String)
deriving DecidableEq, Repr

/-- `PerformanceProfiler.getPerformanceStats` (Log.formatter.ts:300-338). -/
def getPerformanceStats (s : ProfilerState) (name : String) : Option StatsResult :=
  match s.metrics name with
  | none => none
  | some l =>
    if l.isEmpty then none
    else
      let completedMetrics := l.filter (fun m => m.duration.isSome)
      if completedMetrics.isEmpty then
        some (.degenerate name 0 "No completed measurements found")
      else
        let durations := completedMetrics.map (fun m => m.duration.getD 0)
        let totalDuration := durations.foldl (· + ·) 0
        let avgDuration := totalDuration / (durations.length : Rat)
        let minDuration := listMin durations
        let maxDuration := listMax durations
        some (.stats name completedMetrics.length
          (formatDuration totalDuration) (formatDuration avgDuration)
          (formatDuration minDuration) (formatDuration maxDuration)
          (formatDuration ((durations.getLast?).getD 0)))

/-- `PerformanceProfiler.startProfile` (Log.formatter.ts:361-395): consults
the profile-class sampling gate; on rejection returns `null` with no
allocation.  Otherwise creates the profile (the source first sets
`metadata: metadata` and then overwrites it with
`{...profile.metadata, _initialMemory, _initialCpu}`; the net effect is the
merged object), stores it in the active table and returns the fresh id. -/
def startProfile (s : ProfilerState) (name : String) (ctx : Option String)
    (md : Option Meta) (env : Env) : Option Nat × ProfilerState :=
  if !shouldSampleEvent s.options true env.rand then (none, s)
  else
    let id := s.nextId
    let profile : ProfileRec :=
      { id := id, operationName := name, startTime := env.now, context := ctx,
        metadata := some (withSnapshots md env.mem env.cpu), children := some [] }
    (some id,
     { s with
       nextId := id + 1
       heap := fun i => if i = id then some profile else s.heap i
       active := s.active ++ [id] })

/-- `PerformanceProfiler.startChildProfile` (Log.formatter.ts:405-446): if the
parent is not in the active table, falls back to `startProfile` (whose
possibly-`null` result the source force-casts with `as string`; the model
keeps the honest `Option`).  Otherwise creates the child (inheriting the
parent's `context`, with the snapshot-merged metadata and no `children`
field), registers it in the active table and appends it to the parent's
`children` array (creating that array if the parent does not have one). -/
def startChildProfile (s : ProfilerState) (parentId : Nat) (name : String)
    (md : Option Meta) (env : Env) : Option Nat × ProfilerState :=
  match activeLookup s parentId with
  | none => startProfile s name none md env
  | some parentProfile =>
    let childId := s.nextId
    let childProfile : ProfileRec :=
      { id := childId, operationName := name, startTime := env.now,
        context := parentProfile.context,
        metadata := some (withSnapshots md env.mem env.cpu), children := none }
    let parent' := { parentProfile with
                     children := some ((parentProfile.children.getD []) ++ [childId]) }
    (some childId,
     { s with
       nextId := childId + 1
       heap := fun i =>
         if i = childId then some childProfile
         else if i = parentId then some parent' else s.heap i
       active := s.active ++ [childId] })

/-- The closing computation `stopProfile` performs, once for the profile
being stopped (with `endTime = performance.now()`) and once inline for each
still-open child (with `endTime = profile.endTime`): fill `endTime` and
`duration`; if the metadata holds truthy `_initialMemory` and `_initialCpu`
entries, compute the memory/CPU usage diffs against a fresh snapshot and
delete the two internal keys. -/
def finishRec (p : ProfileRec) (endTime : Rat) (env : Env) : ProfileRec :=
  let p1 := { p with endTime := some endTime, duration := some (endTime - p.startTime) }
  match p.metadata with
  | none => p1
  | some md =>
    match md "_initialMemory", md "_initialCpu" with
    | some vm, some vc =>
      if vm.truthy && vc.truthy then
        let initialMemory := vm.asMem
        let initialCpu := vc.asCpu
        { p1 with
          memoryUsageDiff := some
            ⟨env.mem.rss - initialMemory.rss, env.mem.heapTotal - initialMemory.heapTotal,
             env.mem.heapUsed - initialMemory.heapUsed, env.mem.external - initialMemory.external⟩
          cpuUsageDiff := some
            ⟨env.cpu.user - initialCpu.user, env.cpu.system - initialCpu.system⟩
          metadata := some (metaDel (metaDel md "_initialMemory") "_initialCpu") }
      else p1
    | _, _ => p1

/-- One iteration of the force-close loop in `stopProfile`
(Log.formatter.ts:497-533), acting on the (heap, active-key-list) pair: if the
child is still open (`child.endTime === undefined`), close it with the
parent's end time and remove it from the active table. -/
def forceCloseChild (endTime : Rat) (env : Env)
    (hs : (Nat → Option ProfileRec) × List Nat) (cid : Nat) :
    (Nat → Option ProfileRec) × List Nat :=
  match hs.1 cid with
  | none => hs
  | some c =>
    if c.endTime = none then
      let c' := finishRec c endTime env
      (fun i => if i = cid then some c' else hs.1 i, hs.2.erase cid)
    else hs

/-- `PerformanceProfiler.stopProfile` (Log.formatter.ts:454-539): `null` id
returns `undefined` silently; unknown id returns `undefined`; otherwise fills
end time, duration and resource diffs, strips the internal metadata keys,
force-closes still-open direct children, removes the profile (and the
force-closed children) from the active table and returns the finished record. -/
def stopProfile (s : ProfilerState) (oid : Option Nat) (env : Env) :
    Option ProfileRec × ProfilerState :=
  match oid with
  | none => (none, s)
  | some id =>
    match activeLookup s id with
    | none => (none, s)
    | some profile =>
      let p' := finishRec profile env.now env
      let heap1 : Nat → Option ProfileRec := fun i => if i = id then some p' else s.heap i
      let closed :=
        match profile.children with
        | none => (heap1, s.active)
        | some cids => cids.foldl (forceCloseChild env.now env) (heap1, s.active)
      (closed.1 id, { s with heap := closed.1, active := closed.2.erase id })

/-- `PerformanceProfiler.getActiveProfiles` (Log.formatter.ts:546-548):
a copy of the active table (id, profile) entries. -/
def getActiveProfiles (s : ProfilerState) : List (Nat × ProfileRec) :=
  s.active.filterMap (fun i => (s.heap i).map (fun p => (i, p)))

/-- The profiler's public mutating API, for quantifying over every call
sequence.  Each operation carries the environment values read during it. -/
inductive POp where
  | startMeasure (name : String) (md : Option Meta) (env : Env)
  | stopMeasure (name : String) (env : Env)
  | clearMetrics (name : Option String)
  | startProfile (name : String) (ctx : Option String) (md : Option Meta) (env : Env)
  | startChildProfile (parentId : Nat) (name : String) (md : Option Meta) (env : Env)
  | stopProfile (oid : Option Nat) (env : Env)

/-- Apply one API call to the state (return values discarded). -/
def step (s : ProfilerState) : POp → ProfilerState
  | .startMeasure name md env => (startMeasure s name md env).2
  | .stopMeasure name env => (stopMeasure s name env).2
  | .clearMetrics name => clearPerformanceMetrics s name
  | .startProfile name ctx md env => (startProfile s name ctx md env).2
  | .startChildProfile parentId name md env => (startChildProfile s parentId name md env).2
  | .stopProfile oid env => (stopProfile s oid env).2

/-- The state of a fresh profiler after a sequence of API calls. -/
def run (opts : Options) (ops : List POp) : ProfilerState :=
  ops.foldl step (initState opts)

/-! ### Concrete fixtures used by scenario theorems and witnesses -/

/-- A zero memory snapshot. -/
def m0 : MemUsage := ⟨0, 0, 0, 0⟩

/-- A zero CPU snapshot. -/
def c0 : CpuUsage := ⟨0, 0⟩

/-- An environment whose clock reads `t` (zero snapshots, random draw 0). -/
def envAt (t : Rat) : Env := ⟨t, m0, c0, 0⟩

/-- Options of a profiler constructed without a `sampling` override: the
defaults (rate 1.0 everywhere, `alwaysLogErrors: true`) apply. -/
def defOpts : Options := {}

/-- Options with `profileSamplingRate: 0.0`. -/
def zeroProfileRate : Options :=
  { sampling := some { profileSamplingRate := some 0 } }

/-- A history of three finished measurements for `"Q"` with durations
10, 20 and 30 ms, as posited by the statistics-aggregation claim. -/
def qMeasurement (idx : Nat) (d : Rat) : PerformanceMetrics :=
  { operationName := "Q", startTime := 0, endTime := some d, duration := some d,
    memoryUsage := m0, cpuUsage := c0, startIndex := idx }

/-- A store whose `performanceMetrics` map holds that history for `"Q"`. -/
def statsFixture : ProfilerState :=
  { nextId := 0, heap := fun _ => none, active := [],
    metrics := fun n => if n = "Q" then some [qMeasurement 0 10, qMeasurement 1 20, qMeasurement 2 30] else none,
    startCount := 3, options := defOpts }

/-! ### Claim theorems -/

/-- **C4** (code_bug evaluation).  On a fresh store, `startMeasure("Q")` at
`t = 0` followed by `stopMeasure("Q")` at `t = 5` returns the finished
measurement (duration 5), but `pop()` removes the record from the per-name
history: the history for `"Q"` is left *empty*, so `getPerformanceStats("Q")`
returns `undefined` — the finished measurement is not retained, contrary to
the claim (and to the intent of the statistics code, whose
completed-measurement filter and "No completed measurements found" branch are
unreachable through the public start/stop API). -/
theorem claim4_stats_lost_after_stop :
    ((stopMeasure (startMeasure (initState defOpts) "Q" none (envAt 0)).2 "Q" (envAt 5)).1.map
        (fun m => (m.operationName, m.duration)) = some ("Q", some 5)) ∧
    ((stopMeasure (startMeasure (initState defOpts) "Q" none (envAt 0)).2 "Q" (envAt 5)).2.metrics
        "Q").map List.length = some 0 ∧
    getPerformanceStats
      (stopMeasure (startMeasure (initState defOpts) "Q" none (envAt 0)).2 "Q" (envAt 5)).2 "Q"
      = none ∧
    getPerformanceStats (clearPerformanceMetrics
      (stopMeasure (startMeasure (initState defOpts) "Q" none (envAt 0)).2 "Q" (envAt 5)).2
      (some "Q")) "Q" = none := by
  refine ⟨?_, ?_, ?_, ?_⟩ <;>
    norm_num [startMeasure, stopMeasure, initState, envAt, getPerformanceStats,
      clearPerformanceMetrics, defOpts]

/-- **C5** (counterexample).  For the history `[10, 20, 30]` of finished
measurements for `"Q"`, `getPerformanceStats` does *not* return the raw
numbers: every aggregate is piped through `formatDuration` and returned as a
human-readable string (`"60.00 ms"`, not `60`), and the last-duration field is
keyed `lastMeasurement`, not `lastDuration`. -/
theorem claim5_formatted_stats_counterexample :
    getPerformanceStats statsFixture "Q" =
      some (.stats "Q" 3 (formatDuration 60) (formatDuration 20) (formatDuration 10)
        (formatDuration 30) (formatDuration 30)) ∧
    formatDuration 60 = "60.00 ms" ∧ "60.00 ms" ≠ "60" := by
  refine ⟨?_, ?_, by decide⟩
  · norm_num [getPerformanceStats, statsFixture, qMeasurement, listMin, listMax, defOpts]
  · norm_num [formatDuration, toFixed2]
    decide

/-- **C5** (amended).  For the history `[10, 20, 30]` of finished measurements
for `"Q"`, `stats("Q")` yields `count = 3` and the aggregates
total 60 / average 20 / min 10 / max 30 / last 30 rendered as human-readable
duration strings, the last one under the field name `lastMeasurement`. -/
theorem claim5_formatted_stats_amended :
    getPerformanceStats statsFixture "Q" =
      some (.stats "Q" 3 "60.00 ms" "20.00 ms" "10.00 ms" "30.00 ms" "30.00 ms") := by
  norm_num [getPerformanceStats, statsFixture, qMeasurement, listMin, listMax,
    formatDuration, toFixed2, defOpts]
  decide

/-- **C7** (code_bug evaluation).  With `profileSamplingRate = 0` and a random
draw of `1/2`, `startChildProfile` on a parent id that is not in the active
table falls back to `startProfile`, which rejects by sampling and returns
`null` — the declared return type `string` (and its "@returns The ID of the
child profile" contract) notwithstanding (the source silences the type error
with `as string`).  With the default rate 1.0 the same call does return a
fresh id. -/
theorem claim7_child_null_under_sampling :
    (startChildProfile (initState zeroProfileRate) 99 "B" none ⟨0, m0, c0, 1/2⟩).1 = none ∧
    99 ∉ (initState zeroProfileRate).active ∧
    (startChildProfile (initState defOpts) 99 "B" none ⟨0, m0, c0, 1/2⟩).1 = some 0 := by
  refine ⟨?_, by decide, ?_⟩ <;>
    norm_num [startChildProfile, startProfile, initState, activeLookup, zeroProfileRate,
      defOpts, shouldSampleEvent, samplingRate, effectiveSampling, defaultSampling]

/-- Characterization of the service sampling gate, used by the C6 theorem. -/
theorem serviceGate_iff (opts : Options) (level : LogLevel) (isProfile : Bool) (v : Rat) :
    serviceShouldSampleEvent opts level isProfile v = true ↔
      ((level = .error ∧ (effectiveSampling opts).alwaysLogErrors.getD false = true) ∨
       1 ≤ samplingRate opts isProfile ∨ v < samplingRate opts isProfile) := by
  unfold serviceShouldSampleEvent
  split_ifs <;> simp_all

/-- Characterization of the profiler sampling gate (no error override). -/
theorem profilerGate_iff (opts : Options) (isProfile : Bool) (v : Rat) :
    shouldSampleEvent opts isProfile v = true ↔
      (1 ≤ samplingRate opts isProfile ∨ v < samplingRate opts isProfile) := by
  unfold shouldSampleEvent
  simp only []
  split_ifs with h1 <;> simp_all [ge_iff_le]

/-- Options with `generalSamplingRate: 0.5`. -/
def halfGeneralRate : Options :=
  { sampling := some { generalSamplingRate := some (1/2) } }

/-- Options with both rates `0.0` and `alwaysLogErrors: true`. -/
def zeroRatesAlwaysErrors : Options :=
  { sampling := some { generalSamplingRate := some 0, profileSamplingRate := some 0,
                       alwaysLogErrors := some true } }

/-- **C6** (confirmed).  An admission check admits iff the event is
error-class with `alwaysLogErrors` truthy, or the configured rate is ≥ 1, or
the random draw `v` is below the rate; in particular for rate < 1 a non-error
check admits iff `v <` rate, for rate ≥ 1 every check admits regardless of
`v`, and with `alwaysLogErrors = true` and rate 0.0 an error-class check still
admits.  The profiler-side gate (which never sees a level) is the same
predicate without the error clause. -/
theorem claim6_sampling_characterization :
    (∀ (opts : Options) (level : LogLevel) (isProfile : Bool) (v : Rat),
      serviceShouldSampleEvent opts level isProfile v = true ↔
        ((level = .error ∧ (effectiveSampling opts).alwaysLogErrors.getD false = true) ∨
         1 ≤ samplingRate opts isProfile ∨ v < samplingRate opts isProfile)) ∧
    (∀ (opts : Options) (level : LogLevel) (isProfile : Bool) (v : Rat),
      level ≠ .error → samplingRate opts isProfile < 1 →
      (serviceShouldSampleEvent opts level isProfile v = true ↔
        v < samplingRate opts isProfile)) ∧
    (∀ (opts : Options) (level : LogLevel) (isProfile : Bool) (v : Rat),
      1 ≤ samplingRate opts isProfile →
      serviceShouldSampleEvent opts level isProfile v = true) ∧
    (∀ (isProfile : Bool) (v : Rat),
      serviceShouldSampleEvent zeroRatesAlwaysErrors .error isProfile v = true) ∧
    (∀ (opts : Options) (isProfile : Bool) (v : Rat),
      shouldSampleEvent opts isProfile v = true ↔
        (1 ≤ samplingRate opts isProfile ∨ v < samplingRate opts isProfile)) := by
  refine ⟨serviceGate_iff, ?_, ?_, ?_, profilerGate_iff⟩
  · intro opts level isProfile v hlevel hrate
    rw [serviceGate_iff]
    constructor
    · rintro ((⟨h, _⟩) | h | h)
      · exact absurd h hlevel
      · exact absurd h (not_le.mpr hrate)
      · exact h
    · exact fun h => Or.inr (Or.inr h)
  · intro opts level isProfile v hrate
    exact (serviceGate_iff _ _ _ _).mpr (Or.inr (Or.inl hrate))
  · intro isProfile v
    exact (serviceGate_iff _ _ _ _).mpr
      (Or.inl ⟨rfl, by norm_num [zeroRatesAlwaysErrors, effectiveSampling]⟩)

/-- Witness for C6: a non-error check with rate 0.5 and draw 0.25 admits; a
check with the default rate 1.0 admits at any draw; an error check with both
rates zero admits. -/
theorem claim6_sampling_characterization_witness :
    serviceShouldSampleEvent halfGeneralRate .info false (1/4) = true ∧
    serviceShouldSampleEvent defOpts .warn true (9/10) = true ∧
    serviceShouldSampleEvent zeroRatesAlwaysErrors .error true (9/10) = true := by
  refine ⟨?_, ?_, ?_⟩
  · exact (claim6_sampling_characterization.2.1 halfGeneralRate .info false (1/4)
      (by decide) (by norm_num [samplingRate, effectiveSampling, halfGeneralRate])).mpr
      (by norm_num [samplingRate, effectiveSampling, halfGeneralRate])
  · exact claim6_sampling_characterization.2.2.1 defOpts .warn true (9/10)
      (by norm_num [samplingRate, effectiveSampling, defOpts, defaultSampling])
  · exact claim6_sampling_characterization.2.2.2.1 true (9/10)

/-- **C8** (confirmed).  `stopProfile(null)`, `stopProfile` of an id absent
from the active table, and `stopMeasure` of a name with no open measurement
each return absent and leave the whole profiler state (active table and
measurement histories) unchanged; since the state is returned untouched,
repeating any of these calls behaves identically. -/
theorem claim8_graceful_absence :
    (∀ (s : ProfilerState) (env : Env), stopProfile s none env = (none, s)) ∧
    (∀ (s : ProfilerState) (env : Env) (id : Nat), id ∉ s.active →
      stopProfile s (some id) env = (none, s)) ∧
    (∀ (s : ProfilerState) (env : Env) (name : String), (s.metrics name).getD [] = [] →
      stopMeasure s name env = (none, s)) := by
  refine ⟨fun s env => rfl, ?_, ?_⟩
  · intro s env id h
    simp [stopProfile, activeLookup, h]
  · intro s env name h
    cases hm : s.metrics name with
    | none => simp [stopMeasure, hm]
    | some l =>
      have hl : l = [] := by simpa [hm] using h
      subst hl
      simp [stopMeasure, hm]

/-- Witness for C8: on a fresh profiler, `stopProfile(null)`,
`stopProfile("non-existent-id")` and `stopMeasure("never-started")` all return
absent with the state unchanged. -/
theorem claim8_graceful_absence_witness :
    stopProfile (initState defOpts) none (envAt 0) = (none, initState defOpts) ∧
    stopProfile (initState defOpts) (some 5) (envAt 0) = (none, initState defOpts) ∧
    stopMeasure (initState defOpts) "never-started" (envAt 0) = (none, initState defOpts) := by
  refine ⟨claim8_graceful_absence.1 _ _,
    claim8_graceful_absence.2.1 _ _ 5 (by simp [initState]),
    claim8_graceful_absence.2.2 _ _ "never-started" rfl⟩

/-- The string literal `"_initialMemory"` differs from `"_initialCpu"`. -/
theorem sentinel_keys_ne : ("_initialMemory" : String) = "_initialCpu" ↔ False := by
  simp only [iff_false]; decide

/-- **C2** (confirmed).  From a fresh profiler with default options,
`p = startProfile("A")` yields id 0, `c = startChildProfile(p, "B")` yields
id 1, and `stopProfile(p)` without first stopping `c` returns a profile for
`p` with exactly one child; that child's `endTime` equals `p`'s `endTime`
(the child is force-closed with the parent's end time), and the active table
no longer contains an entry for `p` or for `c`. -/
theorem claim2_nesting_closure (nA nB : String) (ctx : Option String)
    (md1 md2 : Option Meta) (e1 e2 e3 : Env) :
    let r1 := startProfile (initState defOpts) nA ctx md1 e1
    let r2 := startChildProfile r1.2 0 nB md2 e2
    let r3 := stopProfile r2.2 (some 0) e3
    r1.1 = some 0 ∧ r2.1 = some 1 ∧
    (∃ q, r3.1 = some q ∧ q.id = 0 ∧ q.operationName = nA ∧
      q.children = some [1] ∧ q.endTime = some e3.now ∧
      ((r3.2.heap 1).map ProfileRec.endTime) = some (some e3.now)) ∧
    (∀ pr ∈ getActiveProfiles r3.2, pr.1 ≠ 0 ∧ pr.1 ≠ 1) := by
  norm_num [startProfile, startChildProfile, stopProfile, initState, activeLookup,
    shouldSampleEvent, samplingRate, effectiveSampling, defaultSampling, defOpts,
    forceCloseChild, finishRec, withSnapshots, metaSet, metaDel, emptyMeta,
    getActiveProfiles, MVal.truthy, sentinel_keys_ne]

/-- The call sequence that exhibits an open grandchild: start `"A"`, start
child `"B"` under it, start grandchild `"C"` under the child. -/
def grandchildOps : List POp :=
  [.startProfile "A" none none (envAt 0),
   .startChildProfile 0 "B" none (envAt 1),
   .startChildProfile 1 "C" none (envAt 2)]

/-- **C1** (counterexample).  Stopping the root `"A"` force-closes only its
*direct* child `"B"`; the grandchild `"C"` (id 2) — reachable from the
returned finished profile through `children` sequences (0 → [1] → [2]) —
keeps `endTime` absent and even stays in the active table.  So it is not the
case that every profile reachable through `children` sequences from a
finished profile has `endTime` present. -/
theorem claim1_open_grandchild_counterexample :
    let res := stopProfile (run defOpts grandchildOps) (some 0) (envAt 3)
    (res.1.map (fun p => (p.id, p.children, p.endTime.isSome)) = some (0, some [1], true)) ∧
    ((res.2.heap 1).map (fun p => (p.children, p.endTime.isSome)) = some (some [2], true)) ∧
    ((res.2.heap 2).map (fun p => (p.children, p.endTime)) = some (none, none)) ∧
    res.2.active = [2] := by
  norm_num [run, step, grandchildOps, startProfile, startChildProfile, stopProfile,
    initState, activeLookup, shouldSampleEvent, samplingRate, effectiveSampling,
    defaultSampling, defOpts, forceCloseChild, finishRec, withSnapshots, metaSet,
    metaDel, emptyMeta, MVal.truthy, sentinel_keys_ne, envAt]

/-- Caller metadata whose key collides with an internal sentinel. -/
def clashMeta : Meta := fun k => if k = "_initialMemory" then some (.vbase 1) else none

/-- **C10** (counterexample).  A caller-supplied metadata entry under the key
`"_initialMemory"` is *not* unchanged: `startProfile` overwrites it with the
internal memory snapshot and `stopProfile` deletes the key, so the
caller's entry is gone from the finished profile. -/
theorem claim10_sentinel_clobber_counterexample :
    let s1 := (startProfile (initState defOpts) "A" none (some clashMeta) (envAt 0)).2
    let r := stopProfile s1 (some 0) (envAt 1)
    clashMeta "_initialMemory" = some (.vbase 1) ∧
    ((activeLookup s1 0).bind (fun p => p.metadata.bind (fun m => m "_initialMemory"))
      = some (.vmem m0)) ∧
    (r.1.bind (fun p => p.metadata.bind (fun m => m "_initialMemory")) = none) := by
  refine ⟨by norm_num [clashMeta], ?_, ?_⟩ <;>
    norm_num [startProfile, stopProfile, initState, activeLookup, shouldSampleEvent,
      samplingRate, effectiveSampling, defaultSampling, defOpts, forceCloseChild,
      finishRec, withSnapshots, metaSet, metaDel, emptyMeta, MVal.truthy,
      sentinel_keys_ne, envAt, clashMeta]

/-- **C10** (amended).  `startProfile` and `startChildProfile` insert the
bookkeeping keys `_initialMemory`/`_initialCpu` into the profile's metadata,
so the still-active profile's metadata contains them; `stopProfile` removes
both keys from the finished profile and from its force-closed child, and
every caller-supplied entry whose key is *not* one of the two sentinel names
is unchanged (a caller entry under a sentinel name is overwritten at start
and deleted at stop, as the counterexample shows). -/
theorem claim10_sentinel_stripping_amended (nA nB : String) (ctx : Option String)
    (md mdc : Option Meta) (e1 e2 e3 : Env) :
    let s1 := (startProfile (initState defOpts) nA ctx md e1).2
    let s2 := (startChildProfile s1 0 nB mdc e2).2
    let res := stopProfile s2 (some 0) e3
    ((activeLookup s1 0).bind (fun p => p.metadata.bind (fun m => m "_initialMemory"))
      = some (.vmem e1.mem)) ∧
    ((activeLookup s1 0).bind (fun p => p.metadata.bind (fun m => m "_initialCpu"))
      = some (.vcpu e1.cpu)) ∧
    ((activeLookup s2 1).bind (fun p => p.metadata.bind (fun m => m "_initialMemory"))
      = some (.vmem e2.mem)) ∧
    ((activeLookup s2 1).bind (fun p => p.metadata.bind (fun m => m "_initialCpu"))
      = some (.vcpu e2.cpu)) ∧
    (res.1.bind (fun p => p.metadata.bind (fun m => m "_initialMemory")) = none) ∧
    (res.1.bind (fun p => p.metadata.bind (fun m => m "_initialCpu")) = none) ∧
    ((res.2.heap 1).bind (fun p => p.metadata.bind (fun m => m "_initialMemory")) = none) ∧
    ((res.2.heap 1).bind (fun p => p.metadata.bind (fun m => m "_initialCpu")) = none) ∧
    (∀ k, k ≠ "_initialMemory" → k ≠ "_initialCpu" →
      res.1.bind (fun p => p.metadata.bind (fun m => m k)) = (md.getD emptyMeta) k) ∧
    (∀ k, k ≠ "_initialMemory" → k ≠ "_initialCpu" →
      (res.2.heap 1).bind (fun p => p.metadata.bind (fun m => m k)) = (mdc.getD emptyMeta) k) := by
  norm_num [startProfile, startChildProfile, stopProfile, initState, activeLookup,
    shouldSampleEvent, samplingRate, effectiveSampling, defaultSampling, defOpts,
    forceCloseChild, finishRec, withSnapshots, metaSet, metaDel, emptyMeta,
    MVal.truthy, sentinel_keys_ne]
  constructor <;> · intro k hk1 hk2; simp [hk1, hk2]

/-- Caller metadata with an ordinary (non-sentinel) key. -/
def userMeta : Meta := fun k => if k = "user" then some (.vbase 7) else none

/-- Witness for the amended C10: with caller metadata `{user: 7}` on both the
parent and the child, the finished profiles still map `"user"` to the
caller's value after stripping. -/
theorem claim10_sentinel_stripping_amended_witness :
    let s1 := (startProfile (initState defOpts) "A" none (some userMeta) (envAt 0)).2
    let s2 := (startChildProfile s1 0 "B" (some userMeta) (envAt 1)).2
    let res := stopProfile s2 (some 0) (envAt 2)
    (res.1.bind (fun p => p.metadata.bind (fun m => m "user")) = some (.vbase 7)) ∧
    ((res.2.heap 1).bind (fun p => p.metadata.bind (fun m => m "user")) = some (.vbase 7)) := by
  have h := claim10_sentinel_stripping_amended "A" "B" none (some userMeta) (some userMeta)
    (envAt 0) (envAt 1) (envAt 2)
  refine ⟨?_, ?_⟩
  · have := h.2.2.2.2.2.2.2.2.1 "user" (by decide) (by decide)
    simpa [userMeta] using this
  · have := h.2.2.2.2.2.2.2.2.2 "user" (by decide) (by decide)
    simpa [userMeta] using this

/-! ### Invariant of the measurement store

Every list in the `performanceMetrics` map holds only not-yet-finished
measurements (a finished one is popped out by `stopMeasure`), in start order
(strictly increasing ghost start indices), all started before the current
ghost counter. -/

/-- Measurement-store invariant. -/
def MInv (s : ProfilerState) : Prop :=
  ∀ name l, s.metrics name = some l →
    (∀ m ∈ l, m.endTime = none ∧ m.duration = none) ∧
    l.Pairwise (fun a b => a.startIndex < b.startIndex) ∧
    (∀ m ∈ l, m.startIndex < s.startCount)

theorem minv_init (opts : Options) : MInv (initState opts) := by
  intro name l h
  simp [initState] at h

theorem startProfile_preserves_store (s : ProfilerState) (n : String) (c : Option String)
    (md : Option Meta) (env : Env) :
    (startProfile s n c md env).2.metrics = s.metrics ∧
    (startProfile s n c md env).2.startCount = s.startCount := by
  unfold startProfile
  split_ifs <;> exact ⟨rfl, rfl⟩

theorem startChildProfile_preserves_store (s : ProfilerState) (pid : Nat) (n : String)
    (md : Option Meta) (env : Env) :
    (startChildProfile s pid n md env).2.metrics = s.metrics ∧
    (startChildProfile s pid n md env).2.startCount = s.startCount := by
  cases h : activeLookup s pid with
  | none =>
    have : startChildProfile s pid n md env = startProfile s n none md env := by
      simp [startChildProfile, h]
    rw [this]
    exact startProfile_preserves_store s n none md env
  | some p => simp [startChildProfile, h]

theorem stopProfile_preserves_store (s : ProfilerState) (oid : Option Nat) (env : Env) :
    (stopProfile s oid env).2.metrics = s.metrics ∧
    (stopProfile s oid env).2.startCount = s.startCount := by
  cases oid with
  | none => exact ⟨rfl, rfl⟩
  | some id =>
    cases h : activeLookup s id with
    | none => simp [stopProfile, h]
    | some p => simp [stopProfile, h]

theorem minv_step (s : ProfilerState) (op : POp) (h : MInv s) : MInv (step s op) := by
  cases op with
  | startMeasure name md env =>
    intro name' l' h'
    simp only [step, startMeasure] at h'
    have hcnt : (step s (POp.startMeasure name md env)).startCount = s.startCount + 1 := rfl
    rw [hcnt]
    by_cases hn : name' = name
    · subst hn
      rw [if_pos rfl] at h'
      injection h' with h'
      subst h'
      cases hm : s.metrics name' with
      | none =>
        simp [hm, List.pairwise_append]
      | some l0 =>
        obtain ⟨hend, hpair, hbound⟩ := h name' l0 hm
        simp only [Option.getD_some]
        refine ⟨?_, ?_, ?_⟩
        · intro m hm'
          rcases List.mem_append.mp hm' with h1 | h1
          · exact hend m h1
          · simp only [List.mem_singleton] at h1
            subst h1; exact ⟨rfl, rfl⟩
        · rw [List.pairwise_append]
          refine ⟨hpair, List.pairwise_singleton _ _, ?_⟩
          intro a ha b hb
          simp only [List.mem_singleton] at hb
          subst hb
          exact hbound a ha
        · intro m hm'
          rcases List.mem_append.mp hm' with h1 | h1
          · exact Nat.lt_succ_of_lt (hbound m h1)
          · simp only [List.mem_singleton] at h1
            subst h1; exact Nat.lt_succ_self _
    · rw [if_neg hn] at h'
      obtain ⟨hend, hpair, hbound⟩ := h name' l' h'
      exact ⟨hend, hpair, fun m hm' => Nat.lt_succ_of_lt (hbound m hm')⟩
  | stopMeasure name env =>
    rcases hm : s.metrics name with _ | l
    · have hstep : step s (POp.stopMeasure name env) = s := by
        simp [step, stopMeasure, hm]
      rw [hstep]; exact h
    · rcases hl : l.getLast? with _ | m
      · have hstep : step s (POp.stopMeasure name env) = s := by
          simp [step, stopMeasure, hm, hl]
        rw [hstep]; exact h
      · have hmet : (step s (POp.stopMeasure name env)).metrics =
            fun n => if n = name then some l.dropLast else s.metrics n := by
          simp [step, stopMeasure, hm, hl]
        have hcnt : (step s (POp.stopMeasure name env)).startCount = s.startCount := by
          simp [step, stopMeasure, hm, hl]
        intro name' l' h'
        rw [hmet] at h'
        dsimp only at h'
        rw [hcnt]
        by_cases hn : name' = name
        · subst hn
          rw [if_pos rfl] at h'
          injection h' with h'
          subst h'
          obtain ⟨hend, hpair, hbound⟩ := h name' l hm
          have hsub : List.Sublist l.dropLast l := List.dropLast_sublist l
          exact ⟨fun m' hm' => hend m' (hsub.subset hm'),
            hpair.sublist hsub,
            fun m' hm' => hbound m' (hsub.subset hm')⟩
        · rw [if_neg hn] at h'
          exact h name' l' h'
  | clearMetrics name =>
    intro name' l' h'
    cases name with
    | none => simp [step, clearPerformanceMetrics] at h'
    | some n =>
      simp only [step, clearPerformanceMetrics] at h'
      by_cases hn : name' = n
      · rw [if_pos hn] at h'
        exact absurd h' (by simp)
      · rw [if_neg hn] at h'
        exact h name' l' h'
  | startProfile n c md env =>
    intro name' l' h'
    have hpre := startProfile_preserves_store s n c md env
    rw [show (step s (POp.startProfile n c md env)) = (startProfile s n c md env).2 from rfl,
      hpre.1] at h'
    rw [show (step s (POp.startProfile n c md env)) = (startProfile s n c md env).2 from rfl,
      hpre.2]
    exact h name' l' h'
  | startChildProfile pid n md env =>
    intro name' l' h'
    have hpre := startChildProfile_preserves_store s pid n md env
    rw [show (step s (POp.startChildProfile pid n md env)) = (startChildProfile s pid n md env).2 from rfl,
      hpre.1] at h'
    rw [show (step s (POp.startChildProfile pid n md env)) = (startChildProfile s pid n md env).2 from rfl,
      hpre.2]
    exact h name' l' h'
  | stopProfile oid env =>
    intro name' l' h'
    have hpre := stopProfile_preserves_store s oid env
    rw [show (step s (POp.stopProfile oid env)) = (stopProfile s oid env).2 from rfl,
      hpre.1] at h'
    rw [show (step s (POp.stopProfile oid env)) = (stopProfile s oid env).2 from rfl,
      hpre.2]
    exact h name' l' h'

theorem minv_foldl (ops : List POp) (s : ProfilerState) (h : MInv s) :
    MInv (ops.foldl step s) := by
  induction ops generalizing s with
  | nil => exact h
  | cons op rest ih => exact ih _ (minv_step s op h)

theorem minv_run (opts : Options) (ops : List POp) : MInv (run opts ops) :=
  minv_foldl ops _ (minv_init opts)

/-- **C3** (confirmed).  Measurement stacking is LIFO.  First, the concrete
scenario: after two `start("X")` calls on a fresh store, the first
`stop("X")` returns the *second*-started measurement (ghost start index 1)
finished with the stop time, and the next `stop("X")` returns the first
(index 0).  Second, in general: in every reachable store each per-name
history contains only not-yet-finished measurements, `stopMeasure` pops the
last of them, and that last one has a strictly larger start index than every
other entry — it is the most recently started not-yet-finished measurement
for that name. -/
theorem claim3_lifo_stacking :
    (∀ (opts : Options) (name : String) (md1 md2 : Option Meta) (e1 e2 e3 e4 : Env),
      let s1 := (startMeasure (initState opts) name md1 e1).2
      let s2 := (startMeasure s1 name md2 e2).2
      let r1 := stopMeasure s2 name e3
      let r2 := stopMeasure r1.2 name e4
      r1.1.map (fun m => (m.startTime, m.startIndex, m.endTime, m.duration))
        = some (e2.now, 1, some e3.now, some (e3.now - e2.now)) ∧
      r2.1.map (fun m => (m.startTime, m.startIndex, m.endTime, m.duration))
        = some (e1.now, 0, some e4.now, some (e4.now - e1.now))) ∧
    (∀ (opts : Options) (ops : List POp) (name : String) (env : Env)
      (l : List PerformanceMetrics), (run opts ops).metrics name = some l →
      (∀ m ∈ l, m.endTime = none) ∧
      ((stopMeasure (run opts ops) name env).1 =
        (l.getLast?).map (fun m =>
          { m with endTime := some env.now, duration := some (env.now - m.startTime) })) ∧
      (∀ ml, l.getLast? = some ml → ∀ m' ∈ l, m' ≠ ml → m'.startIndex < ml.startIndex)) := by
  constructor
  · intro opts name md1 md2 e1 e2 e3 e4
    norm_num [startMeasure, stopMeasure, initState]
  · intro opts ops name env l hl
    obtain ⟨hend, hpair, hbound⟩ := minv_run opts ops name l hl
    refine ⟨fun m hm => (hend m hm).1, ?_, ?_⟩
    · rcases hg : l.getLast? with _ | m
      · simp [stopMeasure, hl, hg]
      · simp [stopMeasure, hl, hg]
    · intro ml hml m' hm' hne
      have hlne : l ≠ [] := by rintro rfl; simp at hml
      have hlast : l.getLast hlne = ml := by
        rw [List.getLast?_eq_getLast l hlne] at hml
        exact Option.some.inj hml
      have hdrop : l.dropLast ++ [ml] = l := by
        rw [← hlast]
        exact List.dropLast_append_getLast hlne
      have hmem : m' ∈ l.dropLast ++ [ml] := by rw [hdrop]; exact hm'
      rcases List.mem_append.mp hmem with h1 | h1
      · have hp : List.Pairwise (fun a b => a.startIndex < b.startIndex) (l.dropLast ++ [ml]) := by
          rw [hdrop]; exact hpair
        rw [List.pairwise_append] at hp
        exact hp.2.2 m' h1 ml (by simp)
      · simp only [List.mem_singleton] at h1
        exact absurd h1 hne

/-- The measurement record created by `startMeasure "X"` at time `t` with
ghost start index `i` (zero snapshots). -/
def wMeasure (t : Rat) (i : Nat) : PerformanceMetrics :=
  { operationName := "X", startTime := t, memoryUsage := m0, cpuUsage := c0, startIndex := i }

/-- Two `startMeasure("X")` calls, at times 1 and 2. -/
def wMeasureOps : List POp :=
  [.startMeasure "X" none (envAt 1), .startMeasure "X" none (envAt 2)]

/-- Witness for C3: after starting `"X"` at times 1 and 2, the history is
`[wMeasure 1 0, wMeasure 2 1]`; `stopMeasure` at time 9 returns the
second-started record (index 1, start time 2, duration 7), and index 0's
entry is strictly older than index 1's. -/
theorem claim3_lifo_stacking_witness :
    ((stopMeasure (run defOpts wMeasureOps) "X" (envAt 9)).1.map
        (fun m => (m.startIndex, m.startTime, m.duration)) = some (1, 2, some 7)) ∧
    (wMeasure 1 0).startIndex < (wMeasure 2 1).startIndex := by
  have h := claim3_lifo_stacking.2 defOpts wMeasureOps "X" (envAt 9)
    [wMeasure 1 0, wMeasure 2 1] rfl
  constructor
  · rw [h.2.1]
    norm_num [wMeasure, envAt]
  · refine h.2.2 (wMeasure 2 1) rfl (wMeasure 1 0) (by simp) ?_
    intro hEq
    have := congrArg PerformanceMetrics.startIndex hEq
    simp [wMeasure] at this

/-! ### Invariant of the profile registry

Active ids are distinct keys of the heap, every active profile is open
(`endTime` absent), every child reference points into the heap, and ids at or
beyond the fresh-id counter are unused. -/

/-- Profile-registry invariant. -/
def PInv (s : ProfilerState) : Prop :=
  s.active.Nodup ∧
  (∀ i ∈ s.active, ∃ p, s.heap i = some p ∧ p.endTime = none) ∧
  (∀ i p, s.heap i = some p → ∀ c ∈ p.children.getD [], (s.heap c).isSome) ∧
  (∀ i, s.nextId ≤ i → s.heap i = none)

theorem pinv_init (opts : Options) : PInv (initState opts) := by
  refine ⟨List.nodup_nil, ?_, ?_, fun i _ => rfl⟩ <;> simp [initState]

/-- `finishRec` changes neither the `children` list nor the `id`. -/
theorem finishRec_children (p : ProfileRec) (et : Rat) (env : Env) :
    (finishRec p et env).children = p.children ∧ (finishRec p et env).id = p.id := by
  rcases hmd : p.metadata with _ | md
  · simp [finishRec, hmd]
  · rcases hm : md "_initialMemory" with _ | vm <;>
      rcases hcu : md "_initialCpu" with _ | vc <;>
      (simp [finishRec, hmd, hm, hcu]; try (split_ifs <;> simp))

/-- `finishRec` sets `endTime` to the supplied end time. -/
theorem finishRec_endTime (p : ProfileRec) (et : Rat) (env : Env) :
    (finishRec p et env).endTime = some et := by
  rcases hmd : p.metadata with _ | md
  · simp [finishRec, hmd]
  · rcases hm : md "_initialMemory" with _ | vm <;>
      rcases hcu : md "_initialCpu" with _ | vc <;>
      (simp [finishRec, hmd, hm, hcu]; try (split_ifs <;> simp))

/-- One force-close step does not change whether a heap cell is populated. -/
theorem fc_step_isSome (et : Rat) (env : Env) (hs : (Nat → Option ProfileRec) × List Nat)
    (c i : Nat) : ((forceCloseChild et env hs c).1 i).isSome = (hs.1 i).isSome := by
  unfold forceCloseChild
  rcases hc : hs.1 c with _ | r
  · rfl
  · dsimp only
    split_ifs with hr
    · dsimp only
      by_cases hic : i = c
      · subst hic; simp [hc]
      · simp [hic]
    · rfl

/-- After the whole force-close fold, heap-cell population is unchanged. -/
theorem fc_foldl_isSome (et : Rat) (env : Env) (cids : List Nat)
    (hs : (Nat → Option ProfileRec) × List Nat) (i : Nat) :
    ((cids.foldl (forceCloseChild et env) hs).1 i).isSome = (hs.1 i).isSome := by
  induction cids generalizing hs with
  | nil => rfl
  | cons c rest ih =>
    rw [List.foldl_cons, ih]
    exact fc_step_isSome et env hs c i

/-- A force-close step leaves already-closed heap entries untouched. -/
theorem fc_step_closed (et : Rat) (env : Env) (hs : (Nat → Option ProfileRec) × List Nat)
    (c i : Nat) (r : ProfileRec) (hr : hs.1 i = some r) (hclosed : r.endTime.isSome) :
    (forceCloseChild et env hs c).1 i = some r := by
  unfold forceCloseChild
  rcases hc : hs.1 c with _ | q
  · exact hr
  · dsimp only
    split_ifs with hq
    · dsimp only
      by_cases hic : i = c
      · subst hic
        rw [hr] at hc
        cases hc
        rw [hq] at hclosed
        simp at hclosed
      · simp [hic, hr]
    · exact hr

/-- The force-close fold leaves already-closed heap entries untouched. -/
theorem fc_foldl_closed (et : Rat) (env : Env) (cids : List Nat)
    (hs : (Nat → Option ProfileRec) × List Nat) (i : Nat) (r : ProfileRec)
    (hr : hs.1 i = some r) (hclosed : r.endTime.isSome) :
    ((cids.foldl (forceCloseChild et env) hs).1 i) = some r := by
  induction cids generalizing hs with
  | nil => exact hr
  | cons c rest ih =>
    rw [List.foldl_cons]
    exact ih _ (fc_step_closed et env hs c i r hr hclosed)

/-- Every processed child ends up populated and closed after the fold. -/
theorem fc_foldl_closes (et : Rat) (env : Env) (cids : List Nat)
    (hs : (Nat → Option ProfileRec) × List Nat)
    (hdom : ∀ c ∈ cids, (hs.1 c).isSome) :
    ∀ c ∈ cids, ∃ r, ((cids.foldl (forceCloseChild et env) hs).1 c) = some r ∧
      r.endTime.isSome := by
  induction cids generalizing hs with
  | nil => intro c hc; simp at hc
  | cons c0 rest ih =>
    intro c hc
    rw [List.foldl_cons]
    have hdom0 : (hs.1 c0).isSome := hdom c0 (by simp)
    rcases hq : hs.1 c0 with _ | q
    · rw [hq] at hdom0; simp at hdom0
    -- after the first step, c0 is populated and closed
    have hstep : ∃ r0, (forceCloseChild et env hs c0).1 c0 = some r0 ∧ r0.endTime.isSome := by
      unfold forceCloseChild
      rw [hq]
      dsimp only
      split_ifs with he
      · exact ⟨finishRec q et env, by simp, by rw [finishRec_endTime]; rfl⟩
      · exact ⟨q, hq ▸ rfl, by
          rcases hqe : q.endTime with _ | t
          · exact absurd hqe he
          · rfl⟩
    rcases List.mem_cons.mp hc with hceq | hcrest
    · subst hceq
      obtain ⟨r0, hr0, hr0c⟩ := hstep
      exact ⟨r0, fc_foldl_closed et env rest _ c r0 hr0 hr0c, hr0c⟩
    · refine ih _ ?_ c hcrest
      intro c' hc'
      rw [fc_step_isSome]
      exact hdom c' (by simp [hc'])

/-- A force-close step only rewrites a cell with its finished version:
children and id are preserved cell-wise. -/
theorem fc_step_children (et : Rat) (env : Env) (hs : (Nat → Option ProfileRec) × List Nat)
    (c i : Nat) (p' : ProfileRec) (h : (forceCloseChild et env hs c).1 i = some p') :
    ∃ p, hs.1 i = some p ∧ p'.children = p.children := by
  unfold forceCloseChild at h
  rcases hc : hs.1 c with _ | r
  · rw [hc] at h; exact ⟨p', h, rfl⟩
  · rw [hc] at h
    dsimp only at h
    split_ifs at h with hr
    · dsimp only at h
      by_cases hic : i = c
      · subst hic
        rw [if_pos rfl] at h
        cases h
        exact ⟨r, hc, (finishRec_children r et env).1⟩
      · rw [if_neg hic] at h
        exact ⟨p', h, rfl⟩
    · exact ⟨p', h, rfl⟩

/-- Through the whole fold, every populated cell descends from an original
cell with the same `children`. -/
theorem fc_foldl_children (et : Rat) (env : Env) (cids : List Nat)
    (hs : (Nat → Option ProfileRec) × List Nat) (i : Nat) (p' : ProfileRec)
    (h : ((cids.foldl (forceCloseChild et env) hs).1 i) = some p') :
    ∃ p, hs.1 i = some p ∧ p'.children = p.children := by
  induction cids generalizing hs with
  | nil => exact ⟨p', h, rfl⟩
  | cons c rest ih =>
    rw [List.foldl_cons] at h
    obtain ⟨q, hq, hqc⟩ := ih _ h
    obtain ⟨p, hp, hpc⟩ := fc_step_children et env hs c i q hq
    exact ⟨p, hp, hqc.trans hpc⟩

/-- The pair invariant carried through the force-close fold: the active list
stays duplicate-free, and every active id other than the one being stopped
still maps to an open profile. -/
def FCInv (stopId : Nat) (hs : (Nat → Option ProfileRec) × List Nat) : Prop :=
  hs.2.Nodup ∧
  ∀ i ∈ hs.2, i ≠ stopId → ∃ p, hs.1 i = some p ∧ p.endTime = none

theorem fc_step_inv (et : Rat) (env : Env) (stopId : Nat)
    (hs : (Nat → Option ProfileRec) × List Nat) (c : Nat) (h : FCInv stopId hs) :
    FCInv stopId (forceCloseChild et env hs c) := by
  obtain ⟨hnd, hopen⟩ := h
  unfold forceCloseChild
  rcases hc : hs.1 c with _ | r
  · exact ⟨hnd, hopen⟩
  · dsimp only
    split_ifs with hr
    · refine ⟨hnd.erase c, ?_⟩
      intro i hi hne
      have hi' : i ≠ c ∧ i ∈ hs.2 := (List.Nodup.mem_erase_iff hnd).mp hi
      obtain ⟨p, hp, hpe⟩ := hopen i hi'.2 hne
      exact ⟨p, by simp [hi'.1, hp], hpe⟩
    · exact ⟨hnd, hopen⟩

theorem fc_foldl_inv (et : Rat) (env : Env) (stopId : Nat) (cids : List Nat)
    (hs : (Nat → Option ProfileRec) × List Nat) (h : FCInv stopId hs) :
    FCInv stopId (cids.foldl (forceCloseChild et env) hs) := by
  induction cids generalizing hs with
  | nil => exact h
  | cons c rest ih => exact ih _ (fc_step_inv et env stopId hs c h)

/-- Registry invariance transfers across operations that leave the heap and
active table unchanged and do not decrease the fresh-id counter. -/
theorem pinv_transfer {s s' : ProfilerState} (hh : s'.heap = s.heap)
    (ha : s'.active = s.active) (hn : s.nextId ≤ s'.nextId) (h : PInv s) : PInv s' := by
  obtain ⟨h1, h2, h3, h4⟩ := h
  refine ⟨ha ▸ h1, ?_, ?_, ?_⟩
  · intro i hi
    rw [ha] at hi
    rw [hh]
    exact h2 i hi
  · intro i p hp cc hcc
    rw [hh] at hp ⊢
    exact h3 i p hp cc hcc
  · intro i hi
    rw [hh]
    exact h4 i (le_trans hn hi)

theorem startMeasure_preserves_registry (s : ProfilerState) (n : String) (md : Option Meta)
    (env : Env) :
    (startMeasure s n md env).2.heap = s.heap ∧ (startMeasure s n md env).2.active = s.active ∧
    s.nextId ≤ (startMeasure s n md env).2.nextId :=
  ⟨rfl, rfl, Nat.le_succ _⟩

theorem stopMeasure_preserves_registry (s : ProfilerState) (n : String) (env : Env) :
    (stopMeasure s n env).2.heap = s.heap ∧ (stopMeasure s n env).2.active = s.active ∧
    s.nextId ≤ (stopMeasure s n env).2.nextId := by
  rcases hm : s.metrics n with _ | l
  · simp [stopMeasure, hm]
  · rcases hl : l.getLast? with _ | m <;> simp [stopMeasure, hm, hl]

theorem clear_preserves_registry (s : ProfilerState) (n : Option String) :
    (clearPerformanceMetrics s n).heap = s.heap ∧
    (clearPerformanceMetrics s n).active = s.active ∧
    s.nextId ≤ (clearPerformanceMetrics s n).nextId := by
  cases n <;> simp [clearPerformanceMetrics]

/-- `PInv` for an explicitly given state, with the raw fields exposed. -/
theorem pinv_mk {nid : Nat} {heap : Nat → Option ProfileRec} {active : List Nat}
    {metrics : String → Option (List PerformanceMetrics)} {scount : Nat} {opts : Options}
    (h1 : active.Nodup)
    (h2 : ∀ i ∈ active, ∃ p, heap i = some p ∧ p.endTime = none)
    (h3 : ∀ i p, heap i = some p → ∀ c ∈ p.children.getD [], (heap c).isSome)
    (h4 : ∀ i, nid ≤ i → heap i = none) :
    PInv ⟨nid, heap, active, metrics, scount, opts⟩ :=
  ⟨h1, h2, h3, h4⟩

theorem pinv_startProfile (s : ProfilerState) (n : String) (c : Option String)
    (md : Option Meta) (env : Env) (h : PInv s) : PInv (startProfile s n c md env).2 := by
  by_cases hs : (!shouldSampleEvent s.options true env.rand) = true
  · have heq : (startProfile s n c md env).2 = s := by simp [startProfile, hs]
    rw [heq]; exact h
  · obtain ⟨h1, h2, h3, h4⟩ := h
    have hfresh : s.nextId ∉ s.active := by
      intro hmem
      obtain ⟨p, hp, _⟩ := h2 _ hmem
      rw [h4 _ (le_refl _)] at hp
      cases hp
    have hstate : (startProfile s n c md env).2 =
        { s with
          nextId := s.nextId + 1
          heap := fun i =>
            if i = s.nextId then
              some { id := s.nextId, operationName := n, startTime := env.now, context := c,
                     metadata := some (withSnapshots md env.mem env.cpu), children := some [] }
            else s.heap i
          active := s.active ++ [s.nextId] } := by
      simp [startProfile, hs]
    rw [hstate]
    refine pinv_mk ?_ ?_ ?_ ?_
    · simpa [List.nodup_append] using ⟨h1, hfresh⟩
    · intro i hi
      rcases List.mem_append.mp hi with hi | hi
      · obtain ⟨p, hp, hpe⟩ := h2 i hi
        have hne : i ≠ s.nextId := by
          intro he
          rw [he, h4 _ (le_refl _)] at hp
          cases hp
        exact ⟨p, by simp [hne, hp], hpe⟩
      · simp only [List.mem_singleton] at hi
        subst hi
        refine ⟨_, by rw [if_pos rfl], rfl⟩
    · intro i p hp cc hcc
      by_cases hi : i = s.nextId
      · subst hi
        rw [if_pos rfl] at hp
        cases hp
        simp at hcc
      · rw [if_neg hi] at hp
        have := h3 i p hp cc hcc
        by_cases hcceq : cc = s.nextId
        · simp [hcceq]
        · simpa [hcceq] using this
    · intro i hi
      have hne : i ≠ s.nextId := by omega
      rw [if_neg hne]
      exact h4 i (by omega)

theorem pinv_startChildProfile (s : ProfilerState) (pid : Nat) (n : String)
    (md : Option Meta) (env : Env) (h : PInv s) : PInv (startChildProfile s pid n md env).2 := by
  rcases hp : activeLookup s pid with _ | parent
  · have heq : startChildProfile s pid n md env = startProfile s n none md env := by
      simp [startChildProfile, hp]
    rw [heq]
    exact pinv_startProfile s n none md env h
  · have hmem : pid ∈ s.active := by
      by_contra hmem
      simp [activeLookup, hmem] at hp
    have hheap : s.heap pid = some parent := by
      simpa [activeLookup, hmem] using hp
    obtain ⟨h1, h2, h3, h4⟩ := h
    have hfresh : s.nextId ∉ s.active := by
      intro hmem'
      obtain ⟨p, hp', _⟩ := h2 _ hmem'
      rw [h4 _ (le_refl _)] at hp'
      cases hp'
    have hpidne : pid ≠ s.nextId := by
      intro he
      rw [he, h4 _ (le_refl _)] at hheap
      cases hheap
    have hstate : (startChildProfile s pid n md env).2 =
        { s with
          nextId := s.nextId + 1
          heap := fun i =>
            if i = s.nextId then
              some { id := s.nextId, operationName := n, startTime := env.now,
                     context := parent.context,
                     metadata := some (withSnapshots md env.mem env.cpu), children := none }
            else if i = pid then
              some { parent with children := some ((parent.children.getD []) ++ [s.nextId]) }
            else s.heap i
          active := s.active ++ [s.nextId] } := by
      simp [startChildProfile, hp]
    rw [hstate]
    refine pinv_mk ?_ ?_ ?_ ?_
    · simpa [List.nodup_append] using ⟨h1, hfresh⟩
    · intro i hi
      rcases List.mem_append.mp hi with hi | hi
      · obtain ⟨p, hp', hpe⟩ := h2 i hi
        have hne : i ≠ s.nextId := by
          intro he
          rw [he, h4 _ (le_refl _)] at hp'
          cases hp'
        by_cases hipid : i = pid
        · subst hipid
          refine ⟨{ parent with children := some ((parent.children.getD []) ++ [s.nextId]) },
            by rw [if_neg hne, if_pos rfl], ?_⟩
          rw [hheap] at hp'
          cases hp'
          exact hpe
        · exact ⟨p, by rw [if_neg hne, if_neg hipid]; exact hp', hpe⟩
      · simp only [List.mem_singleton] at hi
        subst hi
        refine ⟨_, by rw [if_pos rfl], rfl⟩
    · intro i p hp' cc hcc
      have hext : ∀ c2, (s.heap c2).isSome → ((fun i =>
            if i = s.nextId then
              some { id := s.nextId, operationName := n, startTime := env.now,
                     context := parent.context,
                     metadata := some (withSnapshots md env.mem env.cpu), children := none }
            else if i = pid then
              some { parent with children := some ((parent.children.getD []) ++ [s.nextId]) }
            else s.heap i) c2).isSome := by
        intro c2 hc2
        by_cases hq1 : c2 = s.nextId
        · simp [hq1]
        · by_cases hq2 : c2 = pid
          · simp [hq1, hq2, hpidne]
          · simpa [hq1, hq2] using hc2
      by_cases hi : i = s.nextId
      · subst hi
        rw [if_pos rfl] at hp'
        cases hp'
        simp at hcc
      · by_cases hipid : i = pid
        · subst hipid
          rw [if_neg hi, if_pos rfl] at hp'
          cases hp'
          simp only [Option.getD_some] at hcc
          rcases List.mem_append.mp hcc with hcc | hcc
          · exact hext cc (h3 i parent hheap cc hcc)
          · simp only [List.mem_singleton] at hcc
            subst hcc
            simp
        · rw [if_neg hi, if_neg hipid] at hp'
          exact hext cc (h3 i p hp' cc hcc)
    · intro i hi
      have hne : i ≠ s.nextId := by omega
      have hnp : i ≠ pid := by
        intro he
        subst he
        rw [h4 i (by omega)] at hheap
        cases hheap
      rw [if_neg hne, if_neg hnp]
      exact h4 i (by omega)

theorem pinv_stopProfile (s : ProfilerState) (oid : Option Nat) (env : Env)
    (h : PInv s) : PInv (stopProfile s oid env).2 := by
  rcases oid with _ | id
  · exact h
  rcases hl : activeLookup s id with _ | profile
  · have heq : (stopProfile s (some id) env).2 = s := by simp [stopProfile, hl]
    rw [heq]; exact h
  have hmem : id ∈ s.active := by
    by_contra hmem
    simp [activeLookup, hmem] at hl
  have hheap : s.heap id = some profile := by
    simpa [activeLookup, hmem] using hl
  obtain ⟨h1, h2, h3, h4⟩ := h
  have hidlt : id ≠ s.nextId ∧ ∀ j, s.nextId ≤ j → j ≠ id := by
    constructor
    · intro he
      rw [he, h4 _ (le_refl _)] at hheap
      cases hheap
    · intro j hj he
      rw [he] at hj
      rw [h4 _ hj] at hheap
      cases hheap
  -- the heap right after the profile itself is finished
  have main :
      ∀ (closed : (Nat → Option ProfileRec) × List Nat),
        (∀ i, (closed.1 i).isSome =
          ((fun i => if i = id then some (finishRec profile env.now env) else s.heap i) i).isSome) →
        (FCInv id closed) →
        (∀ i p', closed.1 i = some p' → ∃ p,
          (fun i => if i = id then some (finishRec profile env.now env) else s.heap i) i = some p ∧
          p'.children = p.children) →
        PInv ⟨s.nextId, closed.1, closed.2.erase id, s.metrics, s.startCount, s.options⟩ := by
    intro closed hdom hinv hch
    refine pinv_mk ?_ ?_ ?_ ?_
    · exact hinv.1.erase id
    · intro i hi
      have hi' : i ≠ id ∧ i ∈ closed.2 := (List.Nodup.mem_erase_iff hinv.1).mp hi
      exact hinv.2 i hi'.2 hi'.1
    · intro i p' hp' cc hcc
      obtain ⟨p, hp, hpc⟩ := hch i p' hp'
      dsimp only at hp
      rw [hdom cc]
      dsimp only
      by_cases hcceq : cc = id
      · simp [hcceq]
      · simp only [if_neg hcceq]
        by_cases hieq : i = id
        · rw [if_pos hieq] at hp
          cases hp
          rw [hpc, (finishRec_children profile env.now env).1] at hcc
          exact h3 id profile hheap cc hcc
        · rw [if_neg hieq] at hp
          rw [hpc] at hcc
          exact h3 i p hp cc hcc
    · intro i hi
      have hne : i ≠ id := hidlt.2 i hi
      have : (closed.1 i).isSome = false := by
        rw [hdom i]
        dsimp only
        rw [if_neg hne, h4 i hi]
        rfl
      exact Option.not_isSome_iff_eq_none.mp (by simp [this])
  -- the initial pair satisfies the fold preconditions
  have hinit : FCInv id
      ((fun i => if i = id then some (finishRec profile env.now env) else s.heap i), s.active) := by
    refine ⟨h1, ?_⟩
    intro i hi hne
    obtain ⟨p, hp, hpe⟩ := h2 i hi
    exact ⟨p, by simp [hne, hp], hpe⟩
  rcases hch : profile.children with _ | cids
  · have heq : (stopProfile s (some id) env).2 =
        { s with
          heap := fun i => if i = id then some (finishRec profile env.now env) else s.heap i
          active := s.active.erase id } := by
      simp [stopProfile, hl, hch]
    rw [heq]
    exact main _ (fun i => rfl) hinit (fun i p' hp' => ⟨p', hp', rfl⟩)
  · have heq : (stopProfile s (some id) env).2 =
        { s with
          heap := (cids.foldl (forceCloseChild env.now env)
            ((fun i => if i = id then some (finishRec profile env.now env) else s.heap i),
              s.active)).1
          active := (cids.foldl (forceCloseChild env.now env)
            ((fun i => if i = id then some (finishRec profile env.now env) else s.heap i),
              s.active)).2.erase id } := by
      simp [stopProfile, hl, hch]
    rw [heq]
    refine main _ ?_ ?_ ?_
    · intro i
      exact fc_foldl_isSome env.now env cids _ i
    · exact fc_foldl_inv env.now env id cids _ hinit
    · intro i p' hp'
      exact fc_foldl_children env.now env cids _ i p' hp'

theorem pinv_step (s : ProfilerState) (op : POp) (h : PInv s) : PInv (step s op) := by
  cases op with
  | startMeasure name md env =>
    obtain ⟨hh, ha, hn⟩ := startMeasure_preserves_registry s name md env
    exact pinv_transfer hh ha hn h
  | stopMeasure name env =>
    obtain ⟨hh, ha, hn⟩ := stopMeasure_preserves_registry s name env
    exact pinv_transfer hh ha hn h
  | clearMetrics name =>
    obtain ⟨hh, ha, hn⟩ := clear_preserves_registry s name
    exact pinv_transfer hh ha hn h
  | startProfile n c md env => exact pinv_startProfile s n c md env h
  | startChildProfile pid n md env => exact pinv_startChildProfile s pid n md env h
  | stopProfile oid env => exact pinv_stopProfile s oid env h

theorem pinv_foldl (ops : List POp) (s : ProfilerState) (h : PInv s) :
    PInv (ops.foldl step s) := by
  induction ops generalizing s with
  | nil => exact h
  | cons op rest ih => exact ih _ (pinv_step s op h)

theorem pinv_run (opts : Options) (ops : List POp) : PInv (run opts ops) :=
  pinv_foldl ops _ (pinv_init opts)

/-- **C1** (amended).  For every sequence of registry operations: (i) every
profile stored in the active table has `endTime` absent; (ii) stopping an
active profile returns it with `endTime` set to the stop time, and every
*direct* child referenced from the returned profile ends up in the heap with
`endTime` present (still-open direct children are force-closed).  The
original claim's stronger statement — that *every* profile reachable through
`children` sequences is closed — fails for grandchildren (see the
counterexample): force-closing does not recurse. -/
theorem claim1_profile_lifecycle (opts : Options) (ops : List POp) :
    let s := run opts ops
    (∀ i ∈ s.active, ∃ p, s.heap i = some p ∧ p.endTime = none) ∧
    (∀ (id : Nat) (env : Env), id ∈ s.active →
      ((stopProfile s (some id) env).1.map ProfileRec.endTime = some (some env.now)) ∧
      (∀ cc ∈ ((stopProfile s (some id) env).1.map (fun p => p.children.getD [])).getD [],
        ∃ r, (stopProfile s (some id) env).2.heap cc = some r ∧ r.endTime.isSome)) := by
  obtain ⟨h1, h2, h3, h4⟩ := pinv_run opts ops
  refine ⟨h2, ?_⟩
  intro id env hid
  obtain ⟨profile, hheap, hpe⟩ := h2 id hid
  have hlook : activeLookup (run opts ops) id = some profile := by
    simp [activeLookup, hid, hheap]
  have hfin : (finishRec profile env.now env).endTime = some env.now :=
    finishRec_endTime profile env.now env
  have hfinch : (finishRec profile env.now env).children = profile.children :=
    (finishRec_children profile env.now env).1
  rcases hchv : profile.children with _ | cids
  · have heq : stopProfile (run opts ops) (some id) env =
        (some (finishRec profile env.now env),
         { run opts ops with
           heap := fun i => if i = id then some (finishRec profile env.now env)
             else (run opts ops).heap i
           active := (run opts ops).active.erase id }) := by
      simp [stopProfile, hlook, hchv]
    rw [heq]
    refine ⟨by simp [hfin], ?_⟩
    intro cc hcc
    simp [hfinch, hchv] at hcc
  · have hdom : ∀ c ∈ cids,
        (((fun i => if i = id then some (finishRec profile env.now env)
          else (run opts ops).heap i)) c).isSome := by
      intro c hc
      have := h3 id profile hheap c (by rw [hchv]; exact hc)
      dsimp only
      by_cases hceq : c = id
      · simp [hceq]
      · simpa [hceq] using this
    have hclosedid : (cids.foldl (forceCloseChild env.now env)
        ((fun i => if i = id then some (finishRec profile env.now env)
          else (run opts ops).heap i), (run opts ops).active)).1 id =
        some (finishRec profile env.now env) := by
      refine fc_foldl_closed env.now env cids _ id _ (by simp) (by rw [hfin]; rfl)
    have heq : stopProfile (run opts ops) (some id) env =
        ((cids.foldl (forceCloseChild env.now env)
          ((fun i => if i = id then some (finishRec profile env.now env)
            else (run opts ops).heap i), (run opts ops).active)).1 id,
         { run opts ops with
           heap := (cids.foldl (forceCloseChild env.now env)
            ((fun i => if i = id then some (finishRec profile env.now env)
              else (run opts ops).heap i), (run opts ops).active)).1
           active := (cids.foldl (forceCloseChild env.now env)
            ((fun i => if i = id then some (finishRec profile env.now env)
              else (run opts ops).heap i), (run opts ops).active)).2.erase id }) := by
      simp [stopProfile, hlook, hchv]
    rw [heq]
    refine ⟨by simp [hclosedid, hfin], ?_⟩
    intro cc hcc
    simp only [hclosedid] at hcc
    rw [show (Option.map (fun p => p.children.getD [])
      (some (finishRec profile env.now env))).getD [] = cids by simp [hfinch, hchv]] at hcc
    exact fc_foldl_closes env.now env cids _ hdom cc hcc

/-- Witness for C1: after starting `"A"` (id 0) and a child `"B"` (id 1), id 0
is active; stopping it at time 3 returns `endTime = 3` and leaves the child
closed in the heap. -/
theorem claim1_profile_lifecycle_witness :
    let wops : List POp := [.startProfile "A" none none (envAt 0), .startChildProfile 0 "B" none (envAt 1)]
    0 ∈ (run defOpts wops).active ∧
    ((stopProfile (run defOpts wops) (some 0) (envAt 3)).1.map ProfileRec.endTime
      = some (some 3)) ∧
    (∃ r, (stopProfile (run defOpts wops) (some 0) (envAt 3)).2.heap 1 = some r ∧
      r.endTime.isSome) := by
  intro wops
  have hmem : 0 ∈ (run defOpts wops).active := by
    norm_num [run, step, wops, startProfile, startChildProfile, initState, activeLookup,
      shouldSampleEvent, samplingRate, effectiveSampling, defaultSampling, defOpts,
      withSnapshots, metaSet, emptyMeta, envAt]
  have h := (claim1_profile_lifecycle defOpts wops).2 0 (envAt 3) hmem
  have hch : ((stopProfile (run defOpts wops) (some 0) (envAt 3)).1.map
      (fun p => p.children.getD [])).getD [] = [1] := by
    norm_num [run, step, wops, startProfile, startChildProfile, stopProfile, initState,
      activeLookup, shouldSampleEvent, samplingRate, effectiveSampling, defaultSampling,
      defOpts, forceCloseChild, finishRec, withSnapshots, metaSet, metaDel, emptyMeta,
      MVal.truthy, sentinel_keys_ne, envAt]
  refine ⟨hmem, by simpa [envAt] using h.1, ?_⟩
  exact h.2 1 (by rw [hch]; simp)

/-! ### Report renderer (`LoggerUtilities.createPerformanceReport`, part_006:615-790)

The metadata argument is a JS value tree: `MetaVal` models the acyclic case
(finite object/array nesting).  A second, heap-based view (`HVal`/`GHeap`,
further below) represents general object graphs, including cyclic ones, and
carries an explicit call-stack budget; it is used to exhibit the divergence
of the formatter on a cyclic metadata graph. -/

/-- The ANSI color constants of `Logger.themes.ts` used by the renderer. -/
structure ColorSet where
  reset : String
  bold : String
  dim : String
  red : String
  green : String
  brightCyan : String
  brightMagenta : String

/-- `colors` (Logger.themes.ts:15-45), restricted to the fields the report
renderer reads. -/
def colors : ColorSet :=
  { reset := "\x1b[0m", bold := "\x1b[1m", dim := "\x1b[2m", red := "\x1b[31m",
    green := "\x1b[32m", brightCyan := "\x1b[96m", brightMagenta := "\x1b[95m" }

/-- `theme.level` styles read by the renderer. -/
structure ThemeLevel where
  info : String
  debug : String

/-- `theme.message` styles read by the renderer. -/
structure ThemeMessage where
  info : String
  warn : String
  debug : String

/-- The slice of a logger theme the renderer reads. -/
structure LoggerThemeStyles where
  level : ThemeLevel
  message : ThemeMessage

/-- The box-drawing characters of `createPerformanceReport` (the report uses
`topLeft`, `topRight`, `bottomLeft`, `bottomRight`, `horizontal`, `vertical`
and `verticalRight`). -/
structure BoxChars where
  topLeft : String
  topRight : String
  bottomLeft : String
  bottomRight : String
  horizontal : String
  vertical : String
  verticalRight : String

/-- The `boxChars` constant. -/
def boxChars : BoxChars := ⟨"┌", "┐", "└", "┘", "─", "│", "├"⟩

/-- `str.repeat(n)`. -/
def repeatStr (s : String) (n : Nat) : String :=
  String.join (List.replicate n s)

/-- A JS metadata value as a finite tree (the acyclic case): `mnull` covers
both `null` and `undefined`. -/
inductive MetaVal where
  | mnull
  | mstr (s : String)
  | mnum (q : Rat)
  | mbool (b : Bool)
  | mobj (fields : List (String × MetaVal))
  | marr (elems : List MetaVal)

/-- `${n}` for a JS number; exact for integral values (the only ones the
theorems evaluate). -/
def jsNumStr (q : Rat) : String :=
  if q.den = 1 then toString q.num else toString q.num ++ "/" ++ toString q.den

/-- `${value}` for a primitive metadata value. -/
def strOfPrim : MetaVal → String
  | .mnull => "null"
  | .mstr s => s
  | .mnum q => jsNumStr q
  | .mbool b => cond b "true" "false"
  | .mobj _ => "[object Object]"
  | .marr _ => ""

/-- `typeof value === "object" && value !== null` (arrays are objects). -/
def MetaVal.isObjLike : MetaVal → Bool
  | .mobj _ => true
  | .marr _ => true
  | _ => false

/-- Comma-join, as `Array.prototype.join(", ")`. -/
def joinComma : List String → String
  | [] => ""
  | [s] => s
  | s :: rest => s ++ ", " ++ joinComma rest

/-- Newline-join, as `Array.prototype.join("\n")`. -/
def joinNL : List String → String
  | [] => ""
  | [s] => s
  | s :: rest => s ++ "\n" ++ joinNL rest

mutual
/-- `JSON.stringify` on a metadata value tree (string escaping not modelled;
no theorem evaluates it on strings containing quotes). -/
def jsonStr : MetaVal → String
  | .mnull => "null"
  | .mstr s => "\"" ++ s ++ "\""
  | .mnum q => jsNumStr q
  | .mbool b => cond b "true" "false"
  | .mobj fields => "\x7b" ++ jsonStrFields fields ++ "\x7d"
  | .marr elems => "[" ++ jsonStrList elems ++ "]"

/-- Comma-separated `JSON.stringify` of array elements. -/
def jsonStrList : List MetaVal → String
  | [] => ""
  | [v] => jsonStr v
  | v :: rest => jsonStr v ++ "," ++ jsonStrList rest

/-- Comma-separated `"key":value` pairs. -/
def jsonStrFields : List (String × MetaVal) → String
  | [] => ""
  | [(k, v)] => "\"" ++ k ++ "\":" ++ jsonStr v
  | (k, v) :: rest => "\"" ++ k ++ "\":" ++ jsonStr v ++ "," ++ jsonStrFields rest
end

mutual
/-- Size of a metadata value, counting one per node and ignoring strings;
termination measure for the formatter. -/
def MetaVal.msize : MetaVal → Nat
  | .mobj fields => 1 + msizeEntries fields
  | .marr elems => 1 + msizeList elems
  | _ => 1

/-- Size of an entry list. -/
def msizeEntries : List (String × MetaVal) → Nat
  | [] => 0
  | (_, v) :: rest => 1 + MetaVal.msize v + msizeEntries rest

/-- Size of an element list. -/
def msizeList : List MetaVal → Nat
  | [] => 0
  | v :: rest => 1 + MetaVal.msize v + msizeList rest
end

/-- `Object.entries(item as Record<string, unknown>)` for an array item: a
plain object yields its fields, an array yields index-keyed entries,
primitives yield nothing. -/
def toEntries : MetaVal → List (String × MetaVal)
  | .mobj fields => fields
  | .marr elems => indexEntries elems 0
  | _ => []
where
  /-- Index-keyed entries of an array, starting at index `i`. -/
  indexEntries : List MetaVal → Nat → List (String × MetaVal)
  | [], _ => []
  | v :: rest, i => (toString i, v) :: indexEntries rest (i + 1)

theorem msizeEntries_indexEntries (elems : List MetaVal) (i : Nat) :
    msizeEntries (toEntries.indexEntries elems i) = msizeList elems := by
  induction elems generalizing i with
  | nil => rfl
  | cons v rest ih =>
    simp only [toEntries.indexEntries, msizeEntries, msizeList, ih]

theorem msizeEntries_toEntries_lt (v : MetaVal) :
    msizeEntries (toEntries v) < 1 + MetaVal.msize v := by
  cases v with
  | mobj fields => simp [toEntries, MetaVal.msize]; omega
  | marr elems =>
    simp [toEntries, MetaVal.msize, msizeEntries_indexEntries]
    omega
  | mnull => simp [toEntries, msizeEntries, MetaVal.msize]
  | mstr s => simp [toEntries, msizeEntries, MetaVal.msize]
  | mnum q => simp [toEntries, msizeEntries, MetaVal.msize]
  | mbool b => simp [toEntries, msizeEntries, MetaVal.msize]

mutual
/-- One entry line of `formatMetadata` (part_006, metadata block): key plus
value, recursing into nested objects and arrays-of-objects. -/
def fmtVal (key : String) (v : MetaVal) (level : Nat) : String :=
  let indent := repeatStr "  " level
  let formattedKey := colors.bold ++ key ++ colors.reset
  match v with
  | .mnull => indent ++ formattedKey ++ ": " ++ colors.dim ++ "null" ++ colors.reset
  | .mobj fields => indent ++ formattedKey ++ ":\n" ++ fmtEntries fields (level + 1)
  | .marr [] => indent ++ formattedKey ++ ": " ++ colors.dim ++ "[]" ++ colors.reset
  | .marr (e :: es) =>
    if e.isObjLike then
      indent ++ formattedKey ++ ":\n" ++ fmtArrItems (e :: es) 0 level
    else
      indent ++ formattedKey ++ ": [" ++ joinComma ((e :: es).map jsonStr) ++ "]"
  | .mstr s => indent ++ formattedKey ++ ": " ++ strOfPrim (.mstr s)
  | .mnum q => indent ++ formattedKey ++ ": " ++ strOfPrim (.mnum q)
  | .mbool b => indent ++ formattedKey ++ ": " ++ strOfPrim (.mbool b)
termination_by MetaVal.msize v
decreasing_by
  all_goals simp only [MetaVal.msize, msizeEntries, msizeList]
  all_goals omega

/-- `formatMetadata` over the entries of one object: the `Object.entries`
map joined with newlines. -/
def fmtEntries (entries : List (String × MetaVal)) (level : Nat) : String :=
  match entries with
  | [] => ""
  | [(k, v)] => fmtVal k v level
  | (k, v) :: rest => fmtVal k v level ++ "\n" ++ fmtEntries rest level
termination_by msizeEntries entries
decreasing_by
  all_goals simp only [MetaVal.msize, msizeEntries, msizeList]
  all_goals omega

/-- The array-of-objects branch: each item rendered as
`indent  [i]:` followed by the item formatted as a record two levels deeper,
joined with newlines. -/
def fmtArrItems (items : List MetaVal) (idx level : Nat) : String :=
  match items with
  | [] => ""
  | [item] =>
    repeatStr "  " level ++ "  " ++ colors.dim ++ "[" ++ toString idx ++ "]:" ++ colors.reset ++
      "\n" ++ fmtEntries (toEntries item) (level + 2)
  | item :: rest =>
    repeatStr "  " level ++ "  " ++ colors.dim ++ "[" ++ toString idx ++ "]:" ++ colors.reset ++
      "\n" ++ fmtEntries (toEntries item) (level + 2) ++ "\n" ++ fmtArrItems rest (idx + 1) level
termination_by msizeList items
decreasing_by
  all_goals simp only [MetaVal.msize, msizeEntries, msizeList]
  all_goals first
    | omega
    | exact Nat.lt_of_lt_of_le (msizeEntries_toEntries_lt _) (by omega)
end

/-- `LoggerUtilities.formatMemorySize` (part_006:426-437): bytes with units. -/
def formatMemorySize (bytes : Int) : String :=
  if bytes < 1024 then toString bytes ++ " B"
  else if bytes < 1024 * 1024 then toFixed2 ((bytes : Rat) / 1024) ++ " KB"
  else if bytes < 1024 * 1024 * 1024 then toFixed2 ((bytes : Rat) / (1024 * 1024)) ++ " MB"
  else toFixed2 ((bytes : Rat) / (1024 * 1024 * 1024)) ++ " GB"

/-- The inner `formatValue` of `formatCpuUsage`: microsecond display for
sub-0.01ms values. -/
def cpuFormatValue (value originalMicroseconds : Rat) : String :=
  if value < 1/100 ∧ originalMicroseconds > 0 then toFixed0 originalMicroseconds ++ "μs"
  else toFixed2 value ++ "ms"

/-- `LoggerUtilities.formatCpuUsage` (part_006:465-478). -/
def formatCpuUsage (cpuUsage : CpuUsage) : String :=
  let userMs := (cpuUsage.user : Rat) / 1000
  let systemMs := (cpuUsage.system : Rat) / 1000
  "User: " ++ cpuFormatValue userMs (cpuUsage.user : Rat) ++
    ", System: " ++ cpuFormatValue systemMs (cpuUsage.system : Rat)

/-- `createSection`: an 80-column titled box around one content line.  (The
two titles the renderer uses are ASCII, so JS UTF-16 length and codepoint
length agree; the fills are nonnegative for them.) -/
def createSection (title content : String) : String :=
  let width : Nat := 80
  let titleDisplay := " " ++ title ++ " "
  let leftFill := (width - titleDisplay.length) / 2
  let rightFill := width - titleDisplay.length - leftFill
  colors.bold ++ colors.brightCyan ++ boxChars.topLeft ++
    repeatStr boxChars.horizontal leftFill ++ titleDisplay ++
    repeatStr boxChars.horizontal rightFill ++ boxChars.topRight ++ colors.reset ++ "\n" ++
  colors.brightCyan ++ boxChars.vertical ++ colors.reset ++ " " ++ content ++ "\n" ++
  colors.brightCyan ++ boxChars.bottomLeft ++ repeatStr boxChars.horizontal width ++
    boxChars.bottomRight ++ colors.reset

/-- `ProfileData` as consumed by the renderer, with tree metadata and nested
children (the renderer reads only the fields below). -/
inductive RProfile where
  | mk (operationName : String) (duration : Option Rat) (memoryUsageDiff : Option MemUsage)
       (cpuUsageDiff : Option CpuUsage) (metadata : Option (List (String × MetaVal)))
       (children : Option (List RProfile))

/-- Operation name of a renderer profile. -/
def RProfile.operationName : RProfile → String
  | .mk n _ _ _ _ _ => n

/-- Duration of a renderer profile. -/
def RProfile.duration : RProfile → Option Rat
  | .mk _ d _ _ _ _ => d

/-- Memory diff of a renderer profile. -/
def RProfile.memoryUsageDiff : RProfile → Option MemUsage
  | .mk _ _ m _ _ _ => m

/-- CPU diff of a renderer profile. -/
def RProfile.cpuUsageDiff : RProfile → Option CpuUsage
  | .mk _ _ _ c _ _ => c

/-- Metadata of a renderer profile. -/
def RProfile.metadata : RProfile → Option (List (String × MetaVal))
  | .mk _ _ _ _ md _ => md

/-- Children of a renderer profile. -/
def RProfile.children : RProfile → Option (List RProfile)
  | .mk _ _ _ _ _ cs => cs

/-- `profile.duration ? formatted : "[In Progress]"` — note a duration of
exactly 0 is JS-falsy and renders as in-progress. -/
def durationText (style inProgressStyle : String) (d : Option Rat) : String :=
  match d with
  | some v =>
    if v ≠ 0 then style ++ formatDuration v ++ colors.reset
    else inProgressStyle ++ "[In Progress]" ++ colors.reset
  | none => inProgressStyle ++ "[In Progress]" ++ colors.reset

/-- One line of the child-operations block (`isLast` selects the tree-drawing
marker). -/
def childLine (theme : LoggerThemeStyles) (indentation : String) (isLast : Bool)
    (child : RProfile) : String :=
  let childMarker :=
    if isLast then
      indentation ++ colors.brightCyan ++ boxChars.bottomLeft ++ boxChars.horizontal ++ "► " ++
        colors.reset
    else
      indentation ++ colors.brightCyan ++ boxChars.verticalRight ++ boxChars.horizontal ++ "► " ++
        colors.reset
  let childName := theme.level.debug ++ child.operationName ++ colors.reset
  let childDuration := durationText theme.message.debug theme.message.warn child.duration
  let base := childMarker ++ childName ++ " - " ++ childDuration
  match child.memoryUsageDiff with
  | some diff =>
    let heapDiff := diff.heapUsed
    let heapColor := if heapDiff > 0 then colors.red else colors.green
    let sign := if heapDiff > 0 then "+" else ""
    base ++ " " ++ colors.dim ++ "|" ++ colors.reset ++ " Memory: " ++ heapColor ++ sign ++
      formatMemorySize heapDiff ++ colors.reset
  | none => base

/-- The `children.map((child, index) => ...)` loop joined with newlines
(`isLast` is true exactly for the final element). -/
def childrenLines (theme : LoggerThemeStyles) (indentation : String) :
    List RProfile → String
  | [] => ""
  | [c] => childLine theme indentation true c
  | c :: rest => childLine theme indentation false c ++ "\n" ++
      childrenLines theme indentation rest

/-- The two header lines (`▶ OPERATION:` / `▶ DURATION:`) of a report. -/
def reportHeader (profile : RProfile) (theme : LoggerThemeStyles) : String :=
  let operationTitle := theme.level.info ++ colors.bold ++ profile.operationName ++ colors.reset
  colors.bold ++ colors.brightMagenta ++ "▶ OPERATION:" ++ colors.reset ++ " " ++
    operationTitle ++ "\n" ++
  colors.bold ++ colors.brightMagenta ++ "▶ DURATION:" ++ colors.reset ++ " " ++
    durationText theme.message.info theme.message.warn profile.duration

/-- `LoggerUtilities.createPerformanceReport` (part_006:615-790) over tree
metadata: header, then resource-usage / metadata / child-operations blocks,
each present only when its data is. -/
def createPerformanceReport (profile : RProfile) (theme : LoggerThemeStyles)
    (indent : Nat) : String :=
  let indentation := repeatStr "  " indent
  let header := reportHeader profile theme
  let memPart :=
    match profile.memoryUsageDiff with
    | some diff =>
      let heapDiff := diff.heapUsed
      let heapColor := if heapDiff > 0 then colors.red else colors.green
      let sign := if heapDiff > 0 then "+" else ""
      let base := colors.bold ++ "MEMORY:" ++ colors.reset ++ " " ++ heapColor ++ sign ++
        formatMemorySize heapDiff ++ colors.reset
      if 1024 < diff.rss.natAbs then
        base ++ " " ++ colors.dim ++ "(RSS: " ++ sign ++ formatMemorySize diff.rss ++ ")" ++
          colors.reset
      else base
    | none => ""
  let resourceUsage :=
    match profile.cpuUsageDiff with
    | some cpu =>
      (if memPart ≠ "" then memPart ++ "\n" else memPart) ++
        colors.bold ++ "CPU:" ++ colors.reset ++ " " ++ formatCpuUsage cpu
    | none => memPart
  let metadataSection :=
    match profile.metadata with
    | some entries => if entries.length > 0 then fmtEntries entries 0 else ""
    | none => ""
  let childrenSection :=
    match profile.children with
    | some cs => if cs.length > 0 then childrenLines theme indentation cs else ""
    | none => ""
  let report := indentation ++ header
  let report :=
    if resourceUsage ≠ "" then
      report ++ "\n\n" ++ indentation ++ createSection "RESOURCE USAGE" resourceUsage
    else report
  let report :=
    if metadataSection ≠ "" then
      report ++ "\n\n" ++ indentation ++ createSection "METADATA" metadataSection
    else report
  if childrenSection ≠ "" then
    report ++ "\n\n" ++ indentation ++ colors.brightCyan ++ colors.bold ++
      "CHILD OPERATIONS:" ++ colors.reset ++ "\n" ++ childrenSection
  else report

/-! ### The formatter on general object graphs

`formatMetadata` in the source recurses into nested objects with no depth
bound and no repeated-reference detection.  To speak about cyclic metadata —
which a finite tree cannot represent — the same recursion is modelled over an
explicit object heap, with `fuel` as the call-stack budget: each recursive
`formatMetadata` invocation consumes one unit, mirroring one stack frame.
`none` means the budget is exhausted; a computation that is `none` for
*every* budget is the model of unbounded recursion (a stack overflow). -/

/-- A JS metadata value as seen through the heap: `href` is a reference to a
plain object stored in the heap. -/
inductive HVal where
  | hnull
  | hprim (s : String)
  | href (addr : Nat)
  | harr (elems : List HVal)

/-- An object heap: address → fields of the plain object stored there. -/
def GHeap : Type := Nat → Option (List (String × HVal))

/-- `typeof value === "object" && value !== null` in the heap view. -/
def HVal.isObjLikeG : HVal → Bool
  | .href _ => true
  | .harr _ => true
  | _ => false

/-- `Object.entries(item as Record<string, unknown>)` in the heap view. -/
def entriesOfG (heap : GHeap) : HVal → List (String × HVal)
  | .href a => (heap a).getD []
  | .harr es => indexEntriesG es 0
  | _ => []
where
  /-- Index-keyed entries of an array, starting at `i`. -/
  indexEntriesG : List HVal → Nat → List (String × HVal)
  | [], _ => []
  | v :: rest, i => (toString i, v) :: indexEntriesG rest (i + 1)

mutual
/-- One entry line of `formatMetadata` in the heap view; entering a nested
object costs one stack frame (`fuel`). -/
def fmtGVal (fuel : Nat) (heap : GHeap) (key : String) (v : HVal) (level : Nat) :
    Option String :=
  let indent := repeatStr "  " level
  let formattedKey := colors.bold ++ key ++ colors.reset
  match v with
  | .hnull => some (indent ++ formattedKey ++ ": " ++ colors.dim ++ "null" ++ colors.reset)
  | .href a =>
    match fuel with
    | 0 => none
    | fuel' + 1 =>
      (fmtGEntries fuel' heap ((heap a).getD []) (level + 1)).map
        (fun s => indent ++ formattedKey ++ ":\n" ++ s)
  | .harr [] => some (indent ++ formattedKey ++ ": " ++ colors.dim ++ "[]" ++ colors.reset)
  | .harr (e :: es) =>
    if e.isObjLikeG then
      (fmtGItems fuel heap (e :: es) 0 level).map
        (fun s => indent ++ formattedKey ++ ":\n" ++ s)
    else some (indent ++ formattedKey ++ ": [...]")
  | .hprim s => some (indent ++ formattedKey ++ ": " ++ s)
termination_by (fuel, sizeOf v)

/-- `formatMetadata` over the entries of one object, heap view. -/
def fmtGEntries (fuel : Nat) (heap : GHeap) (entries : List (String × HVal))
    (level : Nat) : Option String :=
  match entries with
  | [] => some ""
  | [(k, v)] => fmtGVal fuel heap k v level
  | (k, v) :: rest =>
    match fmtGVal fuel heap k v level, fmtGEntries fuel heap rest level with
    | some s1, some s2 => some (s1 ++ "\n" ++ s2)
    | _, _ => none
termination_by (fuel, sizeOf entries)

/-- The `[i]:` line introducing one array item. -/
def gItemLine (idx level : Nat) (s : String) : String :=
  repeatStr "  " level ++ "  " ++ colors.dim ++ "[" ++ toString idx ++ "]:" ++
    colors.reset ++ "\n" ++ s

/-- The array-of-objects branch, heap view: rendering each item as a record
costs one stack frame. -/
def fmtGItems (fuel : Nat) (heap : GHeap) (items : List HVal) (idx level : Nat) :
    Option String :=
  match items with
  | [] => some ""
  | [item] =>
    match fuel with
    | 0 => none
    | fuel' + 1 =>
      (fmtGEntries fuel' heap (entriesOfG heap item) (level + 2)).map (gItemLine idx level)
  | item :: rest =>
    match fuel with
    | 0 => none
    | fuel' + 1 =>
      match (fmtGEntries fuel' heap (entriesOfG heap item) (level + 2)).map (gItemLine idx level),
          fmtGItems (fuel' + 1) heap rest (idx + 1) level with
      | some s1, some s2 => some (s1 ++ "\n" ++ s2)
      | _, _ => none
termination_by (fuel, sizeOf items)
end

/-- The cyclic metadata graph `const a = {}; a.self = a;`. -/
def cycHeap : GHeap := fun a => if a = 0 then some [("self", HVal.href 0)] else none

/-- The formatter diverges on the cyclic graph: for every call-stack budget,
rendering the entries of the self-referential object exhausts the budget. -/
def rendererDivergesOnCycle : Prop :=
  ∀ fuel level, fmtGEntries fuel cycHeap [("self", HVal.href 0)] level = none

/-- **C9** (counterexample).  `formatMetadata` has no recursion-depth bound
and no repeated-reference detection: on the cyclic metadata object
`a.self = a` it recurses forever — every finite call-stack budget is
exhausted (`none` for all `fuel`), the model of a stack overflow, rather than
producing a placeholder such as "unserializable structure".  An acyclic entry
by contrast renders with a budget of 1. -/
theorem claim9_cycle_divergence :
    rendererDivergesOnCycle ∧
    fmtGEntries 1 cycHeap [("k", HVal.hprim "v")] 0 =
      some (repeatStr "  " 0 ++ (colors.bold ++ "k" ++ colors.reset) ++ ": " ++ "v") := by
  refine ⟨?_, by simp [fmtGEntries, fmtGVal]⟩
  intro fuel
  induction fuel with
  | zero =>
    intro level
    simp [fmtGEntries, fmtGVal]
  | succ n ih =>
    intro level
    have hheap : (cycHeap 0).getD [] = [("self", HVal.href 0)] := by simp [cycHeap]
    simp only [fmtGEntries, fmtGVal, hheap, ih (level + 1)]
    rfl

/-- Report skeleton: a base of `ind ++ hdr` with three conditionally
appended blocks always extends the base. -/
theorem report_shape (ind hdr a1 a2 a3 : String) (c1 c2 c3 : Prop)
    [Decidable c1] [Decidable c2] [Decidable c3] :
    ∃ t, (if c3 then
            (if c2 then
               (if c1 then ind ++ (hdr ++ a1) else ind ++ hdr) ++ a2
             else (if c1 then ind ++ (hdr ++ a1) else ind ++ hdr)) ++ a3
          else
            (if c2 then
               (if c1 then ind ++ (hdr ++ a1) else ind ++ hdr) ++ a2
             else (if c1 then ind ++ (hdr ++ a1) else ind ++ hdr)))
      = ind ++ (hdr ++ t) := by
  split_ifs
  · exact ⟨a1 ++ a2 ++ a3, by simp [String.append_assoc]⟩
  · exact ⟨a2 ++ a3, by simp [String.append_assoc]⟩
  · exact ⟨a1 ++ a3, by simp [String.append_assoc]⟩
  · exact ⟨a3, by simp [String.append_assoc]⟩
  · exact ⟨a1 ++ a2, by simp [String.append_assoc]⟩
  · exact ⟨a2, by simp [String.append_assoc]⟩
  · exact ⟨a1, by simp [String.append_assoc]⟩
  · exact ⟨"", by simp⟩

set_option maxHeartbeats 1000000

/-- **C9** (amended).  On acyclic metadata (finite object/array trees) the
renderer is a total function: for every profile — whatever its metadata
nesting — `createPerformanceReport` yields the report header (operation and
duration lines) followed by some tail, and when every optional field is
absent the report is exactly the header: all optional blocks are omitted.
Cyclic metadata graphs, however, are not tolerated (see the counterexample):
the metadata formatter recurses without bound. -/
theorem claim9_renderer_totality_amended (profile : RProfile)
    (theme : LoggerThemeStyles) (ind : Nat) :
    (∃ tail, createPerformanceReport profile theme ind =
      (repeatStr "  " ind ++ reportHeader profile theme) ++ tail) ∧
    (profile.memoryUsageDiff = none → profile.cpuUsageDiff = none →
     profile.metadata = none → profile.children = none →
     createPerformanceReport profile theme ind =
       repeatStr "  " ind ++ reportHeader profile theme) := by
  constructor
  · unfold createPerformanceReport
    dsimp only
    simp only [String.append_assoc]
    exact report_shape _ _ _ _ _ _ _ _
  · intro h1 h2 h3 h4
    unfold createPerformanceReport
    rw [h1, h2, h3, h4]
    simp

set_option maxHeartbeats 200000

/-- A theme with empty style strings, for concrete evaluation. -/
def plainTheme : LoggerThemeStyles := ⟨⟨"", ""⟩, ⟨"", "", ""⟩⟩

/-- Witness for the amended C9: a profile with only a name and a duration
renders as exactly the two header lines. -/
theorem claim9_renderer_totality_amended_witness :
    createPerformanceReport (RProfile.mk "op" (some 5) none none none none) plainTheme 0 =
      repeatStr "  " 0 ++ reportHeader (RProfile.mk "op" (some 5) none none none none) plainTheme ∧
    (∃ tail, createPerformanceReport (RProfile.mk "op" (some 5) none none none none) plainTheme 0 =
      (repeatStr "  " 0 ++ reportHeader (RProfile.mk "op" (some 5) none none none none) plainTheme) ++ tail) := by
  constructor
  · exact (claim9_renderer_totality_amended _ plainTheme 0).2 rfl rfl rfl rfl
  · exact (claim9_renderer_totality_amended _ plainTheme 0).1

end YuuLog
